import Mathlib

/-!
Verification of the terminal-emulation core of `codelane`
(`crates/codelane-terminal/src/term.rs` and `renderer.rs`).

The embedding is shallow: each Rust item is translated to a Lean
definition of the same name.  Machine integers (`usize`, `u8`, `u16`)
become `Nat`; the places where Rust release-mode arithmetic can wrap are
modelled with an explicit `% 2 ^ 64` (resp. `% 256`).  `Vec` operations
that can panic (`remove`, `insert`, index assignment) are modelled as
`Option`-valued primitives returning `none` exactly when the Rust code
would panic, so panic-freedom is a provable statement.
-/

namespace Codelane

/-- `usize` modulus: Rust release-mode arithmetic wraps modulo `2 ^ 64`. -/
def USIZE : Nat := 2 ^ 64

/-- Wrapping `x - 1` on `usize` (release semantics): `0 - 1` wraps to `USIZE - 1`. -/
def wrapSub1 (x : Nat) : Nat := (x + (USIZE - 1)) % USIZE

/-- `renderer.rs`: `TerminalColor` — default, indexed (0-255) or RGB colour. -/
inductive TerminalColor where
  | Default
  | Indexed (idx : Nat)
  | Rgb (r g b : Nat)
  deriving DecidableEq

/-- `renderer.rs` `flags::BOLD`. -/
def FLAG_BOLD : Nat := 1
/-- `renderer.rs` `flags::ITALIC`. -/
def FLAG_ITALIC : Nat := 2
/-- `renderer.rs` `flags::UNDERLINE`. -/
def FLAG_UNDERLINE : Nat := 4
/-- `renderer.rs` `flags::STRIKETHROUGH`. -/
def FLAG_STRIKETHROUGH : Nat := 8
/-- `renderer.rs` `flags::DIM`. -/
def FLAG_DIM : Nat := 16
/-- `renderer.rs` `flags::INVERSE`. -/
def FLAG_INVERSE : Nat := 32
/-- `renderer.rs` `flags::HIDDEN`. -/
def FLAG_HIDDEN : Nat := 64
/-- `renderer.rs` `flags::BLINK`. -/
def FLAG_BLINK : Nat := 128

/-- `renderer.rs`: `CellAttributes` (fg/bg colour and a `u16` flag bitset).
The `Default` impl gives `fg = bg = Default`, `flags = 0`. -/
structure CellAttributes where
  fg : TerminalColor := TerminalColor.Default
  bg : TerminalColor := TerminalColor.Default
  flags : Nat := 0
  deriving DecidableEq

/-- `flags |= bit` / `flags &= !bit` on a `u16` bitset (`!bit` is the 16-bit
complement, i.e. `65535 - bit` for a single-bit mask). -/
def setFlagBit (a : CellAttributes) (bit : Nat) (v : Bool) : CellAttributes :=
  if v then { a with flags := a.flags ||| bit }
  else { a with flags := a.flags &&& (65535 - bit) }

/-- `CellAttributes::set_bold`. -/
def CellAttributes.set_bold (a : CellAttributes) (v : Bool) : CellAttributes :=
  setFlagBit a FLAG_BOLD v

/-- `CellAttributes::set_dim`. -/
def CellAttributes.set_dim (a : CellAttributes) (v : Bool) : CellAttributes :=
  setFlagBit a FLAG_DIM v

/-- `CellAttributes::set_italic`. -/
def CellAttributes.set_italic (a : CellAttributes) (v : Bool) : CellAttributes :=
  setFlagBit a FLAG_ITALIC v

/-- `CellAttributes::set_underline`. -/
def CellAttributes.set_underline (a : CellAttributes) (v : Bool) : CellAttributes :=
  setFlagBit a FLAG_UNDERLINE v

/-- `CellAttributes::set_blink`. -/
def CellAttributes.set_blink (a : CellAttributes) (v : Bool) : CellAttributes :=
  setFlagBit a FLAG_BLINK v

/-- `CellAttributes::set_inverse`. -/
def CellAttributes.set_inverse (a : CellAttributes) (v : Bool) : CellAttributes :=
  setFlagBit a FLAG_INVERSE v

/-- `CellAttributes::set_hidden`. -/
def CellAttributes.set_hidden (a : CellAttributes) (v : Bool) : CellAttributes :=
  setFlagBit a FLAG_HIDDEN v

/-- `CellAttributes::set_strikethrough`. -/
def CellAttributes.set_strikethrough (a : CellAttributes) (v : Bool) : CellAttributes :=
  setFlagBit a FLAG_STRIKETHROUGH v

/-- `CellAttributes::reset`: `*self = Self::default()`. -/
def CellAttributes.reset (_ : CellAttributes) : CellAttributes := {}

/-- `term.rs`: `Cell` — one character plus its style attributes. -/
structure Cell where
  c : Char
  attrs : CellAttributes
  deriving DecidableEq

/-- `impl Default for Cell`: a blank space with default attributes. -/
def Cell.default : Cell := { c := ' ', attrs := {} }

/-- `term.rs`: `ParserState` of the ANSI escape-sequence FSM. -/
inductive ParserState where
  | Ground
  | Escape
  | Csi
  | Osc
  | CsiPrivate
  deriving DecidableEq

/-- `term.rs`: `TerminalBuffer` — grid of cells, cursor, scroll region and
parser state.  `csi_params` and `osc_buffer` hold raw accumulated bytes. -/
structure TerminalBuffer where
  cells : List (List Cell)
  cursor_x : Nat
  cursor_y : Nat
  cols : Nat
  rows : Nat
  current_attrs : CellAttributes
  parser_state : ParserState
  csi_params : List Nat
  osc_buffer : List Nat
  scroll_top : Nat
  scroll_bottom : Nat
  saved_cursor : Option (Nat × Nat)
  cursor_visible : Bool
  deriving DecidableEq

/-- `vec![Cell::default(); cols]`: a blank row. -/
def blankRow (cols : Nat) : List Cell := List.replicate cols Cell.default

/-- `TerminalBuffer::new(cols, rows)`. -/
def TerminalBuffer.new (cols rows : Nat) : TerminalBuffer where
  cells := List.replicate rows (blankRow cols)
  cursor_x := 0
  cursor_y := 0
  cols := cols
  rows := rows
  current_attrs := {}
  parser_state := ParserState.Ground
  csi_params := []
  osc_buffer := []
  scroll_top := 0
  scroll_bottom := rows - 1
  saved_cursor := none
  cursor_visible := true

/-- `Vec::remove(i)`: panics (`none`) when `i` is out of range. -/
def vecRemove (l : List α) (i : Nat) : Option (List α) :=
  if i < l.length then some (l.eraseIdx i) else none

/-- `Vec::insert(i, a)`: panics (`none`) when `i > len`. -/
def vecInsert (l : List α) (i : Nat) (a : α) : Option (List α) :=
  if i ≤ l.length then some (l.insertIdx i a) else none

/-- `self.cells[y][x] = v`: indexed assignment, panicking (`none`) when either
index is out of range. -/
def setCell (g : List (List Cell)) (y x : Nat) (v : Cell) : Option (List (List Cell)) :=
  match g[y]? with
  | some row => if x < row.length then some (g.set y (row.set x v)) else none
  | none => none

/-- `for x in xs { cells[y][x] = v }`: a run of indexed assignments in row `y`. -/
def setCells (g : List (List Cell)) (y : Nat) (xs : List Nat) (v : Cell) :
    Option (List (List Cell)) :=
  xs.foldlM (fun g x => setCell g y x v) g

/-- `for y in ys { for x in 0..cols { cells[y][x] = Cell::default() } }`. -/
def clearRows (g : List (List Cell)) (ys : List Nat) (cols : Nat) :
    Option (List (List Cell)) :=
  ys.foldlM (fun g y => setCells g y (List.range cols) Cell.default) g

/-- ASCII digit test used when parsing CSI parameter bytes. -/
def isDigitByte (b : Nat) : Bool := decide (48 ≤ b ∧ b ≤ 57)

/-- Value of a digit string (bytes), most significant first. -/
def digitsToNat (s : List Nat) : Nat := s.foldl (fun acc b => acc * 10 + (b - 48)) 0

/-- `s.parse::<usize>().unwrap_or(0)` applied to one semicolon-separated
segment of the CSI parameter buffer: parsing fails (yielding 0) when the
segment is empty, contains a non-digit byte (such as `:`), or overflows
`usize`. -/
def parseUsize (s : List Nat) : Nat :=
  if s ≠ [] ∧ s.all isDigitByte = true ∧ digitsToNat s < USIZE then digitsToNat s else 0

/-- `split(';')` on the raw CSI parameter bytes. -/
def splitSemi : List Nat → List (List Nat)
  | [] => [[]]
  | b :: rest =>
    let r := splitSemi rest
    if b = 59 then [] :: r
    else
      match r with
      | s :: ss => (b :: s) :: ss
      | [] => [[b]]

/-- `TerminalBuffer::parse_params`. -/
def TerminalBuffer.parse_params (b : TerminalBuffer) : List Nat :=
  if b.csi_params = [] then []
  else (splitSemi b.csi_params).map parseUsize

/-- `TerminalBuffer::scroll_up`: remove the row at `scroll_top` and insert a
blank one at `scroll_bottom` — scoped to the scroll region. -/
def TerminalBuffer.scroll_up (b : TerminalBuffer) : Option TerminalBuffer :=
  if b.scroll_top < b.scroll_bottom then do
    let g ← vecRemove b.cells b.scroll_top
    let g ← vecInsert g b.scroll_bottom (blankRow b.cols)
    some { b with cells := g }
  else some b

/-- `TerminalBuffer::scroll_down`: remove the row at `scroll_bottom` and insert
a blank one at `scroll_top`. -/
def TerminalBuffer.scroll_down (b : TerminalBuffer) : Option TerminalBuffer :=
  if b.scroll_top < b.scroll_bottom then do
    let g ← vecRemove b.cells b.scroll_bottom
    let g ← vecInsert g b.scroll_top (blankRow b.cols)
    some { b with cells := g }
  else some b

/-- `TerminalBuffer::newline`: advance a row, scrolling at the bottom margin. -/
def TerminalBuffer.newline (b : TerminalBuffer) : Option TerminalBuffer :=
  if b.cursor_y ≥ b.scroll_bottom then b.scroll_up
  else some { b with cursor_y := b.cursor_y + 1 }

/-- `TerminalBuffer::index` (same body as `newline` in the source). -/
def TerminalBuffer.index (b : TerminalBuffer) : Option TerminalBuffer :=
  if b.cursor_y ≥ b.scroll_bottom then b.scroll_up
  else some { b with cursor_y := b.cursor_y + 1 }

/-- `TerminalBuffer::reverse_index`. -/
def TerminalBuffer.reverse_index (b : TerminalBuffer) : Option TerminalBuffer :=
  if b.cursor_y ≤ b.scroll_top then b.scroll_down
  else some { b with cursor_y := b.cursor_y - 1 }

/-- `TerminalBuffer::put_char`: place a printable at the cursor, advance and
wrap the line if needed. -/
def TerminalBuffer.put_char (b : TerminalBuffer) (c : Char) : Option TerminalBuffer :=
  if b.cursor_y < b.rows ∧ b.cursor_x < b.cols then do
    let g ← setCell b.cells b.cursor_y b.cursor_x { c := c, attrs := b.current_attrs }
    let b := { b with cells := g, cursor_x := b.cursor_x + 1 }
    if b.cursor_x ≥ b.cols then TerminalBuffer.newline { b with cursor_x := 0 }
    else some b
  else some b

/-- `TerminalBuffer::erase_line`.  The Rust `for x in a..b` / `a..=b` loops of
indexed assignments become `setCells` over the corresponding index list. -/
def TerminalBuffer.erase_line (b : TerminalBuffer) (mode : Nat) : Option TerminalBuffer :=
  if b.cursor_y ≥ b.rows then some b
  else if mode = 0 then do
    let g ← setCells b.cells b.cursor_y
      (List.range' b.cursor_x (b.cols - b.cursor_x)) Cell.default
    some { b with cells := g }
  else if mode = 1 then do
    let g ← setCells b.cells b.cursor_y
      (List.range (min b.cursor_x (b.cols - 1) + 1)) Cell.default
    some { b with cells := g }
  else if mode = 2 then do
    let g ← setCells b.cells b.cursor_y (List.range b.cols) Cell.default
    some { b with cells := g }
  else some b

/-- `TerminalBuffer::clear_screen`: blank every cell and home the cursor. -/
def TerminalBuffer.clear_screen (b : TerminalBuffer) : TerminalBuffer :=
  { b with cells := b.cells.map (fun row => row.map (fun _ => Cell.default)),
           cursor_x := 0, cursor_y := 0 }

/-- `TerminalBuffer::erase_display`. -/
def TerminalBuffer.erase_display (b : TerminalBuffer) (mode : Nat) : Option TerminalBuffer :=
  if mode = 0 then do
    let b ← b.erase_line 0
    let g ← clearRows b.cells (List.range' (b.cursor_y + 1) (b.rows - (b.cursor_y + 1))) b.cols
    some { b with cells := g }
  else if mode = 1 then do
    let g ← clearRows b.cells (List.range b.cursor_y) b.cols
    TerminalBuffer.erase_line { b with cells := g } 1
  else if mode = 2 ∨ mode = 3 then some b.clear_screen
  else some b

/-- `TerminalBuffer::reset`. -/
def TerminalBuffer.reset (b : TerminalBuffer) : TerminalBuffer :=
  let b := b.clear_screen
  { b with current_attrs := {}, scroll_top := 0, scroll_bottom := b.rows - 1,
           saved_cursor := none, cursor_visible := true }

/-- `TerminalBuffer::insert_lines`. -/
def TerminalBuffer.insert_lines (b : TerminalBuffer) (n : Nat) : Option TerminalBuffer :=
  (List.range n).foldlM
    (fun b _ =>
      if b.cursor_y ≤ b.scroll_bottom then do
        let g ← vecRemove b.cells b.scroll_bottom
        let g ← vecInsert g b.cursor_y (blankRow b.cols)
        some { b with cells := g }
      else some b)
    b

/-- `TerminalBuffer::delete_lines`. -/
def TerminalBuffer.delete_lines (b : TerminalBuffer) (n : Nat) : Option TerminalBuffer :=
  (List.range n).foldlM
    (fun b _ =>
      if b.cursor_y ≤ b.scroll_bottom then do
        let g ← vecRemove b.cells b.cursor_y
        let g ← vecInsert g b.scroll_bottom (blankRow b.cols)
        some { b with cells := g }
      else some b)
    b

/-- `TerminalBuffer::delete_chars`: in the cursor's row, `n` times remove the
cell at `cursor_x` and push a blank at the end (guarded, so never panics on
the row itself; the initial `cells[cursor_y]` access can panic). -/
def TerminalBuffer.delete_chars (b : TerminalBuffer) (n : Nat) : Option TerminalBuffer :=
  if b.cursor_y ≥ b.rows then some b
  else
    match b.cells[b.cursor_y]? with
    | none => none
    | some row =>
      let row := (List.range n).foldl
        (fun row _ =>
          if b.cursor_x < row.length then row.eraseIdx b.cursor_x ++ [Cell.default]
          else row)
        row
      some { b with cells := b.cells.set b.cursor_y row }

/-- `TerminalBuffer::insert_chars`: `n` times insert a blank at `cursor_x`
(panics when `cursor_x > row.len()`) and truncate the row to `cols`. -/
def TerminalBuffer.insert_chars (b : TerminalBuffer) (n : Nat) : Option TerminalBuffer :=
  if b.cursor_y ≥ b.rows then some b
  else
    match b.cells[b.cursor_y]? with
    | none => none
    | some row => do
      let row ← (List.range n).foldlM
        (fun row _ =>
          if b.cursor_x < b.cols then
            match vecInsert row b.cursor_x Cell.default with
            | some row => some (row.take b.cols)
            | none => none
          else some row)
        row
      some { b with cells := b.cells.set b.cursor_y row }

/-- `TerminalBuffer::parse_extended_color`: reads the sub-selector after a
38/48 SGR code.  Returns the colour together with the updated loop index `i`;
`none` leaves the index unchanged in the caller.  `as u8` casts are `% 256`.
The `params.getD _ 0` reads sit under length guards that make them exactly the
Rust checked index. -/
def parse_extended_color (params : List Nat) (i : Nat) : Option (TerminalColor × Nat) :=
  if i + 1 < params.length then
    if params.getD (i + 1) 0 = 5 then
      if i + 2 < params.length then
        some (TerminalColor.Indexed (params.getD (i + 2) 0 % 256), i + 2)
      else none
    else if params.getD (i + 1) 0 = 2 then
      if i + 4 < params.length then
        some (TerminalColor.Rgb (params.getD (i + 2) 0 % 256) (params.getD (i + 3) 0 % 256)
          (params.getD (i + 4) 0 % 256), i + 4)
      else none
    else none
  else none

/-- One non-extended SGR code acting on the attribute state: the arms of the
`match params[i]` in `TerminalBuffer::process_sgr` other than 38/48 (all the
patterns are disjoint, so splitting them out preserves the dispatch). -/
def sgrSimpleCode (attrs : CellAttributes) (p : Nat) : CellAttributes :=
  if p = 0 then attrs.reset
  else if p = 1 then attrs.set_bold true
  else if p = 2 then attrs.set_dim true
  else if p = 3 then attrs.set_italic true
  else if p = 4 then attrs.set_underline true
  else if p = 5 then attrs.set_blink true
  else if p = 7 then attrs.set_inverse true
  else if p = 8 then attrs.set_hidden true
  else if p = 9 then attrs.set_strikethrough true
  else if p = 21 then attrs.set_bold false
  else if p = 22 then (attrs.set_bold false).set_dim false
  else if p = 23 then attrs.set_italic false
  else if p = 24 then attrs.set_underline false
  else if p = 25 then attrs.set_blink false
  else if p = 27 then attrs.set_inverse false
  else if p = 28 then attrs.set_hidden false
  else if p = 29 then attrs.set_strikethrough false
  else if 30 ≤ p ∧ p ≤ 37 then { attrs with fg := TerminalColor.Indexed (p - 30) }
  else if p = 39 then { attrs with fg := TerminalColor.Default }
  else if 40 ≤ p ∧ p ≤ 47 then { attrs with bg := TerminalColor.Indexed (p - 40) }
  else if p = 49 then { attrs with bg := TerminalColor.Default }
  else if 90 ≤ p ∧ p ≤ 97 then { attrs with fg := TerminalColor.Indexed (p - 90 + 8) }
  else if 100 ≤ p ∧ p ≤ 107 then { attrs with bg := TerminalColor.Indexed (p - 100 + 8) }
  else attrs

/-- The `while i < params.len()` loop of `TerminalBuffer::process_sgr`, with an
explicit fuel argument for structural recursion.  Every iteration advances `i`
by at least 1 and consumes one unit of fuel, so with `fuel ≥ params.length - i`
(as in every use below) the fuel never runs out before the loop condition
`i < params.length` fails: the function then equals the Rust loop exactly.
The loop only reads and writes `self.current_attrs`, so it is a pure function
on the attribute state. -/
def sgrLoop : Nat → List Nat → Nat → CellAttributes → CellAttributes
  | 0, _, _, attrs => attrs
  | fuel + 1, params, i, attrs =>
    if i < params.length then
      let p := params.getD i 0
      if p = 38 then
        match parse_extended_color params i with
        | some (c, j) => sgrLoop fuel params (j + 1) { attrs with fg := c }
        | none => sgrLoop fuel params (i + 1) attrs
      else if p = 48 then
        match parse_extended_color params i with
        | some (c, j) => sgrLoop fuel params (j + 1) { attrs with bg := c }
        | none => sgrLoop fuel params (i + 1) attrs
      else sgrLoop fuel params (i + 1) (sgrSimpleCode attrs p)
    else attrs

/-- `TerminalBuffer::process_sgr` (acting on `current_attrs` only). -/
def process_sgr (attrs : CellAttributes) (params : List Nat) : CellAttributes :=
  if params = [] then attrs.reset
  else sgrLoop params.length params 0 attrs

/-- `TerminalBuffer::execute_csi`, dispatching on the final byte.  Additions
that can wrap on `usize` carry an explicit `% USIZE`; the DECSTBM `bottom - 1`
subtraction (the only unchecked one whose operand can be 0) uses `wrapSub1`.
`self.rows - 1` / `self.cols - 1` appear only under `rows ≥ 1` / `cols ≥ 1`
in all uses below, where `Nat` subtraction agrees with `usize`. -/
def TerminalBuffer.execute_csi (b : TerminalBuffer) (final_byte : Nat) : Option TerminalBuffer :=
  let params := b.parse_params
  if final_byte = 65 then
    -- 'A' CUU
    let n := max (params.headD 1) 1
    some { b with cursor_y := b.cursor_y - n }
  else if final_byte = 66 then
    -- 'B' CUD
    let n := max (params.headD 1) 1
    some { b with cursor_y := min ((b.cursor_y + n) % USIZE) (b.rows - 1) }
  else if final_byte = 67 then
    -- 'C' CUF
    let n := max (params.headD 1) 1
    some { b with cursor_x := min ((b.cursor_x + n) % USIZE) (b.cols - 1) }
  else if final_byte = 68 then
    -- 'D' CUB
    let n := max (params.headD 1) 1
    some { b with cursor_x := b.cursor_x - n }
  else if final_byte = 69 then
    -- 'E' CNL
    let n := max (params.headD 1) 1
    some { b with cursor_x := 0, cursor_y := min ((b.cursor_y + n) % USIZE) (b.rows - 1) }
  else if final_byte = 70 then
    -- 'F' CPL
    let n := max (params.headD 1) 1
    some { b with cursor_x := 0, cursor_y := b.cursor_y - n }
  else if final_byte = 71 then
    -- 'G' CHA
    let n := max (params.headD 1) 1
    some { b with cursor_x := min (n - 1) (b.cols - 1) }
  else if final_byte = 72 ∨ final_byte = 102 then
    -- 'H' / 'f' CUP
    let row := max (params.headD 1) 1
    let col := max (params.getD 1 1) 1
    some { b with cursor_y := min (row - 1) (b.rows - 1),
                  cursor_x := min (col - 1) (b.cols - 1) }
  else if final_byte = 74 then
    -- 'J' ED
    b.erase_display (params.headD 0)
  else if final_byte = 75 then
    -- 'K' EL
    b.erase_line (params.headD 0)
  else if final_byte = 76 then
    -- 'L' IL
    b.insert_lines (max (params.headD 1) 1)
  else if final_byte = 77 then
    -- 'M' DL
    b.delete_lines (max (params.headD 1) 1)
  else if final_byte = 80 then
    -- 'P' DCH
    b.delete_chars (max (params.headD 1) 1)
  else if final_byte = 64 then
    -- '@' ICH
    b.insert_chars (max (params.headD 1) 1)
  else if final_byte = 109 then
    -- 'm' SGR
    some { b with current_attrs := process_sgr b.current_attrs params }
  else if final_byte = 114 then
    -- 'r' DECSTBM
    let top := max (params.headD 1) 1
    let bottom := params.getD 1 b.rows
    some { b with scroll_top := min (top - 1) (b.rows - 1),
                  scroll_bottom := min (wrapSub1 bottom) (b.rows - 1),
                  cursor_x := 0, cursor_y := 0 }
  else if final_byte = 100 then
    -- 'd' VPA
    let n := max (params.headD 1) 1
    some { b with cursor_y := min (n - 1) (b.rows - 1) }
  else if final_byte = 88 then
    -- 'X' ECH
    let n := max (params.headD 1) 1
    ((List.range n).foldlM
      (fun g i =>
        if (b.cursor_x + i) % USIZE < b.cols ∧ b.cursor_y < b.rows then
          setCell g b.cursor_y ((b.cursor_x + i) % USIZE) Cell.default
        else some g)
      b.cells).map (fun g => { b with cells := g })
  else if final_byte = 83 then
    -- 'S' SU
    let n := max (params.headD 1) 1
    (List.range n).foldlM (fun b _ => b.scroll_up) b
  else if final_byte = 84 then
    -- 'T' SD
    let n := max (params.headD 1) 1
    (List.range n).foldlM (fun b _ => b.scroll_down) b
  else some b

/-- `TerminalBuffer::process_ground`. -/
def TerminalBuffer.process_ground (b : TerminalBuffer) (byte : Nat) : Option TerminalBuffer :=
  if byte = 27 then some { b with parser_state := ParserState.Escape }
  else if byte = 10 then b.newline
  else if byte = 13 then some { b with cursor_x := 0 }
  else if byte = 8 then some { b with cursor_x := b.cursor_x - 1 }
  else if byte = 9 then
    let x := ((b.cursor_x / 8 + 1) * 8) % USIZE
    some (if x ≥ b.cols then { b with cursor_x := b.cols - 1 } else { b with cursor_x := x })
  else if byte = 7 then some b
  else if byte ≥ 32 then b.put_char (Char.ofNat byte)
  else some b

/-- `TerminalBuffer::process_escape`. -/
def TerminalBuffer.process_escape (b : TerminalBuffer) (byte : Nat) : Option TerminalBuffer :=
  if byte = 91 then
    -- '['
    some { b with parser_state := ParserState.Csi, csi_params := [] }
  else if byte = 93 then
    -- ']'
    some { b with parser_state := ParserState.Osc, osc_buffer := [] }
  else if byte = 99 then
    -- 'c' RIS
    some { b.reset with parser_state := ParserState.Ground }
  else if byte = 55 then
    -- '7' DECSC
    some { b with saved_cursor := some (b.cursor_x, b.cursor_y),
                  parser_state := ParserState.Ground }
  else if byte = 56 then
    -- '8' DECRC
    let b :=
      match b.saved_cursor with
      | some (x, y) => { b with cursor_x := min x (b.cols - 1), cursor_y := min y (b.rows - 1) }
      | none => b
    some { b with parser_state := ParserState.Ground }
  else if byte = 68 then do
    -- 'D' IND
    let b ← b.index
    some { b with parser_state := ParserState.Ground }
  else if byte = 69 then do
    -- 'E' NEL
    let b ← TerminalBuffer.index { b with cursor_x := 0 }
    some { b with parser_state := ParserState.Ground }
  else if byte = 77 then do
    -- 'M' RI
    let b ← b.reverse_index
    some { b with parser_state := ParserState.Ground }
  else some { b with parser_state := ParserState.Ground }

/-- `TerminalBuffer::process_csi`. -/
def TerminalBuffer.process_csi (b : TerminalBuffer) (byte : Nat) : Option TerminalBuffer :=
  if byte = 63 then
    -- '?'
    some { b with parser_state := ParserState.CsiPrivate }
  else if (48 ≤ byte ∧ byte ≤ 57) ∨ byte = 59 ∨ byte = 58 then
    some { b with csi_params := b.csi_params ++ [byte] }
  else if 64 ≤ byte ∧ byte ≤ 126 then do
    let b ← b.execute_csi byte
    some { b with parser_state := ParserState.Ground }
  else some { b with parser_state := ParserState.Ground }

/-- `TerminalBuffer::process_csi_private` (always total: it only flips
`cursor_visible` or clears the screen). -/
def TerminalBuffer.process_csi_private (b : TerminalBuffer) (byte : Nat) : TerminalBuffer :=
  if (48 ≤ byte ∧ byte ≤ 57) ∨ byte = 59 then
    { b with csi_params := b.csi_params ++ [byte] }
  else if byte = 104 ∨ byte = 108 then
    -- 'h' / 'l'
    let params := b.parse_params
    let b := params.foldl
      (fun b param =>
        if param = 25 then { b with cursor_visible := byte == 104 }
        else if param = 1049 then (if byte = 104 then b.clear_screen else b)
        else b)
      b
    { b with parser_state := ParserState.Ground }
  else { b with parser_state := ParserState.Ground }

/-- `TerminalBuffer::process_osc`: BEL or ESC terminates; anything else is
accumulated, aborting to Ground past 4096 bytes. -/
def TerminalBuffer.process_osc (b : TerminalBuffer) (byte : Nat) : TerminalBuffer :=
  if byte = 7 then { b with parser_state := ParserState.Ground }
  else if byte = 27 then { b with parser_state := ParserState.Ground }
  else
    let buf := b.osc_buffer ++ [byte]
    if buf.length > 4096 then { b with osc_buffer := buf, parser_state := ParserState.Ground }
    else { b with osc_buffer := buf }

/-- `TerminalBuffer::write_byte`: one step of the byte-at-a-time FSM. -/
def TerminalBuffer.write_byte (b : TerminalBuffer) (byte : Nat) : Option TerminalBuffer :=
  match b.parser_state with
  | ParserState.Ground => b.process_ground byte
  | ParserState.Escape => b.process_escape byte
  | ParserState.Csi => b.process_csi byte
  | ParserState.CsiPrivate => some (b.process_csi_private byte)
  | ParserState.Osc => some (b.process_osc byte)

/-- Feeding a byte sequence one byte at a time (the read loop's inner loop). -/
def writeBytes (b : TerminalBuffer) (bs : List Nat) : Option TerminalBuffer :=
  bs.foldlM TerminalBuffer.write_byte b

/-- The buffer part of `Terminal::resize`: `Vec::resize` on the rows then on
each row (truncate or pad with default cells), update `cols`/`rows`, reset
`scroll_bottom` to the last row and clamp the cursor (`saturating_sub`). -/
def TerminalBuffer.resize (b : TerminalBuffer) (new_cols new_rows : Nat) : TerminalBuffer :=
  let cells :=
    if new_rows ≤ b.cells.length then b.cells.take new_rows
    else b.cells ++ List.replicate (new_rows - b.cells.length) (blankRow new_cols)
  let cells := cells.map
    (fun row =>
      if new_cols ≤ row.length then row.take new_cols
      else row ++ List.replicate (new_cols - row.length) Cell.default)
  { b with cells := cells, cols := new_cols, rows := new_rows,
           scroll_bottom := new_rows - 1,
           cursor_x := min b.cursor_x (new_cols - 1),
           cursor_y := min b.cursor_y (new_rows - 1) }

/-- `renderer.rs` `ANSI_COLORS_16`: the fixed 16-entry palette. -/
def ANSI_COLORS_16 : List String :=
  ["#000000", "#cd0000", "#00cd00", "#cdcd00", "#0000ee", "#cd00cd", "#00cdcd", "#e5e5e5",
   "#7f7f7f", "#ff0000", "#00ff00", "#ffff00", "#5c5cff", "#ff00ff", "#00ffff", "#ffffff"]

/-- `renderer.rs` `DEFAULT_FG`. -/
def DEFAULT_FG : String := "#d4d4d4"

/-- `renderer.rs` `DEFAULT_BG`. -/
def DEFAULT_BG : String := "transparent"

/-- One lowercase hexadecimal digit. -/
def hexDigitChar (n : Nat) : Char :=
  if n < 10 then Char.ofNat (48 + n) else Char.ofNat (87 + n)

/-- Two-digit lowercase hex of a byte value, as `{:02x}` formats it for n < 256. -/
def hex2 (n : Nat) : String := String.mk [hexDigitChar (n / 16), hexDigitChar (n % 16)]

/-- `format!("#{:02x}{:02x}{:02x}", r, g, b)`. -/
def cssHex (r g b : Nat) : String := "#" ++ hex2 r ++ hex2 g ++ hex2 b

/-- `renderer.rs` `index_to_css`: 256-colour index to CSS colour string.
The argument is a `u8`, so callers pass values < 256. -/
def index_to_css (idx : Nat) : String :=
  if idx ≤ 15 then ANSI_COLORS_16.getD idx ""
  else if idx ≤ 231 then
    let i := idx - 16
    let r := (i / 36) % 6
    let g := (i / 6) % 6
    let b := i % 6
    let r := if r = 0 then 0 else 55 + r * 40
    let g := if g = 0 then 0 else 55 + g * 40
    let b := if b = 0 then 0 else 55 + b * 40
    cssHex r g b
  else
    let gray := 8 + (idx - 232) * 10
    cssHex gray gray gray

/-- `TerminalColor::to_fg_css`. -/
def TerminalColor.to_fg_css : TerminalColor → String
  | TerminalColor.Default => DEFAULT_FG
  | TerminalColor.Indexed idx => index_to_css idx
  | TerminalColor.Rgb r g b => cssHex r g b

/-- `TerminalColor::to_bg_css`. -/
def TerminalColor.to_bg_css : TerminalColor → String
  | TerminalColor.Default => DEFAULT_BG
  | TerminalColor.Indexed idx => index_to_css idx
  | TerminalColor.Rgb r g b => cssHex r g b

/-- One `reader.read(&mut buf)` outcome seen by the background read loop:
a non-empty batch of bytes (`Ok(n)`, `n > 0`), end of file (`Ok(0)`), or a
fatal I/O error (`Err(e)`). -/
inductive ReadResult where
  | ok (bytes : List Nat)
  | eof
  | ioErr
  deriving DecidableEq

/-- An event the read loop sends for its session (ids dropped: one session). -/
inductive LoopEvent where
  | redraw
  | exited (code : Int)
  deriving DecidableEq

/-- Whether the read loop has terminated after consuming a list of read
outcomes.  `panicked` marks a byte that would panic the task. -/
inductive LoopStatus where
  | running
  | terminated
  | panicked
  deriving DecidableEq

/-- The background read loop spawned by `Terminal::spawn`, as a function of the
sequence of PTY read outcomes: `Ok(0)` sends `Exited(id, 0)` and breaks;
`Ok(n)` feeds the bytes to the buffer under the lock and sends `Redraw`;
`Err(e)` only logs the error and breaks. -/
def readLoop (b : TerminalBuffer) : List ReadResult → List LoopEvent × LoopStatus
  | [] => ([], LoopStatus.running)
  | ReadResult.eof :: _ => ([LoopEvent.exited 0], LoopStatus.terminated)
  | ReadResult.ioErr :: _ => ([], LoopStatus.terminated)
  | ReadResult.ok bytes :: rest =>
    match writeBytes b bytes with
    | some b2 =>
      let (es, st) := readLoop b2 rest
      (LoopEvent.redraw :: es, st)
    | none => ([], LoopStatus.panicked)

/-- A read outcome that makes the loop `break`. -/
def isEndSignal : ReadResult → Bool
  | ReadResult.ok _ => false
  | _ => true

/-- The character stored at cell `(y, x)` (for stating concrete scenarios). -/
def charAt (b : TerminalBuffer) (y x : Nat) : Option Char :=
  b.cells[y]?.bind (fun row => row[x]?.map Cell.c)

/-- The resolved foreground CSS colour of cell `(y, x)`. -/
def fgCssAt (b : TerminalBuffer) (y x : Nat) : Option String :=
  b.cells[y]?.bind (fun row => row[x]?.map (fun c => c.attrs.fg.to_fg_css))

/-- Shape invariant: the grid is exactly `R` rows of exactly `C` cells. -/
def GridShape (g : List (List Cell)) (C R : Nat) : Prop :=
  g.length = R ∧ ∀ row ∈ g, row.length = C

/-- The state invariant maintained by every `write_byte` step on a buffer
created with `C` columns and `R` rows (no resize): dimensions are fixed, the
grid is full, and cursor and scroll marks are strictly below the bounds.
(`scroll_top ≤ scroll_bottom` is deliberately NOT part of it — DECSTBM can
violate it.) -/
def Inv (C R : Nat) (b : TerminalBuffer) : Prop :=
  b.cols = C ∧ b.rows = R ∧ GridShape b.cells C R ∧
  b.cursor_x < C ∧ b.cursor_y < R ∧ b.scroll_top < R ∧ b.scroll_bottom < R

/-- Every cell of `g2` is a cell of `g1` or the default blank cell: the
"no background-colour-erase" property of grid operations. -/
def CellsFrom (g2 g1 : List (List Cell)) : Prop :=
  ∀ row ∈ g2, ∀ c ∈ row,
    (∃ row1 ∈ g1, c ∈ row1) ∨
      c = { c := ' ', attrs := { fg := TerminalColor.Default, bg := TerminalColor.Default,
                                 flags := 0 } }

/-- Every cell of `r2` comes from `r1` or is the default blank. -/
def RowFrom (r2 r1 : List Cell) : Prop :=
  ∀ c ∈ r2, c ∈ r1 ∨ c = Cell.default

/-- The cube-component formula as the spec words it (claim C8): level 0 maps
to 0, level n in 1..5 maps to 55 + 40·n. -/
def cubeComponent (n : Nat) : Nat := if n = 0 then 0 else 55 + 40 * n

/-- Claim C8's colour-resolution formula, written from the spec's words for
comparison with the source's `index_to_css`: the fixed 16-entry palette for
0–15, the 216-colour cube for 16–231 with components `cubeComponent`, and the
grayscale ramp `gray = 8 + 10·(idx − 232)` for 232–255. -/
def index_to_css_spec (idx : Nat) : String :=
  if idx ≤ 15 then ANSI_COLORS_16.getD idx ""
  else if idx ≤ 231 then
    cssHex (cubeComponent (((idx - 16) / 36) % 6)) (cubeComponent (((idx - 16) / 6) % 6))
      (cubeComponent ((idx - 16) % 6))
  else cssHex (8 + 10 * (idx - 232)) (8 + 10 * (idx - 232)) (8 + 10 * (idx - 232))

/-- The whole-buffer scroll that claim C6 asserts for `CSI S` (written from the
spec's words, for comparison): drop the first row and append one blank row,
ignoring the scroll region. -/
def wholeBufferScrollUp (b : TerminalBuffer) : TerminalBuffer :=
  { b with cells := b.cells.drop 1 ++ [blankRow b.cols] }

/-! ### Invariant-preservation lemmas -/

theorem foldlM_inv {α β : Type} (P : β → Prop) (f : β → α → Option β)
    (hstep : ∀ b a, P b → ∃ b2, f b a = some b2 ∧ P b2) :
    ∀ (xs : List α) (b : β), P b → ∃ b2, xs.foldlM f b = some b2 ∧ P b2 := by
  intro xs
  induction xs with
  | nil => intro b hb; exact ⟨b, rfl, hb⟩
  | cons x xs ih =>
    intro b hb
    obtain ⟨b1, hb1, hP1⟩ := hstep b x hb
    obtain ⟨b2, hb2, hP2⟩ := ih b1 hP1
    refine ⟨b2, ?_, hP2⟩
    simp [List.foldlM_cons, hb1, hb2]

theorem CellsFrom_refl (g : List (List Cell)) : CellsFrom g g := by
  intro row hrow c hc
  exact Or.inl ⟨row, hrow, hc⟩

theorem CellsFrom_trans {g1 g2 g3 : List (List Cell)}
    (h12 : CellsFrom g2 g1) (h23 : CellsFrom g3 g2) : CellsFrom g3 g1 := by
  intro row hrow c hc
  rcases h23 row hrow c hc with ⟨row2, hrow2, hc2⟩ | h
  · exact h12 row2 hrow2 c hc2
  · exact Or.inr h

theorem blank_eq : Cell.default =
    { c := ' ', attrs := { fg := TerminalColor.Default, bg := TerminalColor.Default,
                           flags := 0 } } := rfl

theorem GridShape.row_get {g : List (List Cell)} {C R : Nat} (h : GridShape g C R) {y : Nat}
    (hy : y < R) : ∃ row, g[y]? = some row ∧ row.length = C ∧ row ∈ g := by
  obtain ⟨hlen, hrow⟩ := h
  have hy' : y < g.length := by omega
  refine ⟨g[y], List.getElem?_eq_getElem hy', ?_, ?_⟩
  · exact hrow _ (g.getElem_mem hy')
  · exact g.getElem_mem hy'

theorem setCell_ok {g : List (List Cell)} {C R : Nat} (h : GridShape g C R) {y x : Nat}
    (hy : y < R) (hx : x < C) (v : Cell) :
    ∃ g2, setCell g y x v = some g2 ∧ GridShape g2 C R ∧
      (∀ row ∈ g2, ∀ c ∈ row, (∃ row1 ∈ g, c ∈ row1) ∨ c = v) := by
  obtain ⟨row, hget, hlen, hmem⟩ := h.row_get hy
  refine ⟨g.set y (row.set x v), ?_, ⟨?_, ?_⟩, ?_⟩
  · simp [setCell, hget, hlen, hx]
  · simp [h.1]
  · intro row2 hrow2
    rcases List.mem_or_eq_of_mem_set hrow2 with h2 | h2
    · exact h.2 _ h2
    · simp [h2, hlen]
  · intro row2 hrow2 c hc
    rcases List.mem_or_eq_of_mem_set hrow2 with h2 | h2
    · exact Or.inl ⟨row2, h2, hc⟩
    · subst h2
      rcases List.mem_or_eq_of_mem_set hc with h3 | h3
      · exact Or.inl ⟨row, hmem, h3⟩
      · exact Or.inr h3

theorem setCells_ok {C R : Nat} {y : Nat} (hy : y < R) :
    ∀ (xs : List Nat) (g : List (List Cell)), GridShape g C R → (∀ x ∈ xs, x < C) →
    ∃ g2, setCells g y xs Cell.default = some g2 ∧ GridShape g2 C R ∧ CellsFrom g2 g := by
  intro xs
  induction xs with
  | nil => intro g hg _; exact ⟨g, rfl, hg, CellsFrom_refl g⟩
  | cons x xs ih =>
    intro g hg hxs
    obtain ⟨g1, hg1, hsh1, hfrom1⟩ := setCell_ok hg hy (hxs x (by simp)) Cell.default
    obtain ⟨g2, hg2, hsh2, hfrom2⟩ := ih g1 hsh1 (fun x hx => hxs x (by simp [hx]))
    refine ⟨g2, ?_, hsh2, ?_⟩
    · simp [setCells, List.foldlM_cons, hg1]
      simpa [setCells] using hg2
    · refine CellsFrom_trans ?_ hfrom2
      intro row hrow c hc
      rcases hfrom1 row hrow c hc with h | h
      · exact Or.inl h
      · exact Or.inr (h.trans blank_eq)

theorem clearRows_ok {C R : Nat} :
    ∀ (ys : List Nat) (g : List (List Cell)), GridShape g C R → (∀ y ∈ ys, y < R) →
    ∃ g2, clearRows g ys C = some g2 ∧ GridShape g2 C R ∧ CellsFrom g2 g := by
  intro ys
  induction ys with
  | nil => intro g hg _; exact ⟨g, rfl, hg, CellsFrom_refl g⟩
  | cons y ys ih =>
    intro g hg hys
    obtain ⟨g1, hg1, hsh1, hfrom1⟩ :=
      setCells_ok (hys y (by simp)) (List.range C) g hg (fun x hx => List.mem_range.mp hx)
    obtain ⟨g2, hg2, hsh2, hfrom2⟩ := ih g1 hsh1 (fun y hy => hys y (by simp [hy]))
    refine ⟨g2, ?_, hsh2, CellsFrom_trans hfrom1 hfrom2⟩
    simp [clearRows, List.foldlM_cons, hg1]
    simpa [clearRows] using hg2

theorem insertIdx_getElem?_of_lt {α : Type} :
    ∀ (l : List α) (j k : Nat) (a : α), k < j → (l.insertIdx j a)[k]? = l[k]? := by
  intro l
  induction l with
  | nil =>
    intro j k a hk
    cases j with
    | zero => omega
    | succ j => simp
  | cons x l ih =>
    intro j k a hk
    cases j with
    | zero => omega
    | succ j =>
      rw [List.insertIdx_succ_cons]
      cases k with
      | zero => simp
      | succ k => simpa using ih j k a (by omega)

theorem insertIdx_getElem?_of_ge {α : Type} :
    ∀ (l : List α) (j k : Nat) (a : α), j ≤ k → j ≤ l.length →
      (l.insertIdx j a)[k + 1]? = l[k]? := by
  intro l
  induction l with
  | nil =>
    intro j k a hjk hj
    have hj0 : j = 0 := by simpa using hj
    subst hj0
    simp
  | cons x l ih =>
    intro j k a hjk hj
    cases j with
    | zero => simp
    | succ j =>
      rw [List.insertIdx_succ_cons]
      cases k with
      | zero => omega
      | succ k => simpa using ih j k a (by omega) (by simpa using hj)

/-- `cells.remove(i)` followed by `cells.insert(j, blankRow C)` (the splice at
the heart of scrolling and line insertion/deletion) succeeds and preserves the
shape; rows before `min i j` and after `max i j` keep their contents. -/
theorem splice_ok {g : List (List Cell)} {C R : Nat} (h : GridShape g C R) {i j : Nat}
    (hi : i < R) (hj : j < R) :
    ∃ g1 g2, vecRemove g i = some g1 ∧ vecInsert g1 j (blankRow C) = some g2 ∧
      GridShape g2 C R ∧ CellsFrom g2 g ∧
      (∀ k, k < min i j ∨ max i j < k → g2[k]? = g[k]?) := by
  obtain ⟨hlen, hrow⟩ := h
  have hi' : i < g.length := by omega
  have hlen1 : (g.eraseIdx i).length = R - 1 := by
    rw [List.length_eraseIdx_of_lt hi']; omega
  have hj' : j ≤ (g.eraseIdx i).length := by omega
  refine ⟨g.eraseIdx i, (g.eraseIdx i).insertIdx j (blankRow C), ?_, ?_, ⟨?_, ?_⟩, ?_, ?_⟩
  · simp [vecRemove, hi']
  · simp [vecInsert, hj']
  · rw [List.length_insertIdx _ _ hj']; omega
  · intro row hmem
    rcases (List.mem_insertIdx hj').mp hmem with h2 | h2
    · simp [h2, blankRow]
    · exact hrow _ (List.eraseIdx_subset _ _ h2)
  · intro row hmem c hc
    rcases (List.mem_insertIdx hj').mp hmem with h2 | h2
    · right
      rw [← blank_eq]
      rcases List.mem_replicate.mp (h2 ▸ hc) with ⟨_, hceq⟩
      exact hceq
    · exact Or.inl ⟨row, List.eraseIdx_subset _ _ h2, hc⟩
  · intro k hk
    rcases hk with hk | hk
    · rw [insertIdx_getElem?_of_lt _ _ _ _ (by omega),
        List.getElem?_eraseIdx_of_lt _ _ _ (by omega)]
    · have hkeq : k = (k - 1) + 1 := by omega
      rw [hkeq, insertIdx_getElem?_of_ge _ _ _ _ (by omega) (by omega),
        List.getElem?_eraseIdx_of_ge _ _ _ (by omega)]

/-- `TerminalBuffer::scroll_up` under the invariant: succeeds, touches only
`cells`, preserves the shape, introduces only blank cells, and leaves every
row outside `[scroll_top, scroll_bottom]` unchanged. -/
theorem scroll_up_ok {C R : Nat} {b : TerminalBuffer} (h : Inv C R b) :
    ∃ g2, b.scroll_up = some { b with cells := g2 } ∧ GridShape g2 C R ∧
      CellsFrom g2 b.cells ∧
      (∀ k, k < b.scroll_top ∨ b.scroll_bottom < k → g2[k]? = b.cells[k]?) := by
  obtain ⟨hc, hr, hsh, hcx, hcy, hst, hsb⟩ := h
  subst hc hr
  by_cases hlt : b.scroll_top < b.scroll_bottom
  · obtain ⟨g1, g2, hg1, hg2, hsh2, hfrom2, hout⟩ := splice_ok hsh hst hsb (j := b.scroll_bottom)
    refine ⟨g2, ?_, hsh2, hfrom2, fun k hk => hout k (by omega)⟩
    simp [TerminalBuffer.scroll_up, hlt, hg1, hg2]
  · exact ⟨b.cells, by rw [TerminalBuffer.scroll_up, if_neg hlt], hsh,
      CellsFrom_refl _, fun k _ => rfl⟩

/-- `TerminalBuffer::scroll_down` under the invariant (dual of `scroll_up_ok`). -/
theorem scroll_down_ok {C R : Nat} {b : TerminalBuffer} (h : Inv C R b) :
    ∃ g2, b.scroll_down = some { b with cells := g2 } ∧ GridShape g2 C R ∧
      CellsFrom g2 b.cells ∧
      (∀ k, k < b.scroll_top ∨ b.scroll_bottom < k → g2[k]? = b.cells[k]?) := by
  obtain ⟨hc, hr, hsh, hcx, hcy, hst, hsb⟩ := h
  subst hc hr
  by_cases hlt : b.scroll_top < b.scroll_bottom
  · obtain ⟨g1, g2, hg1, hg2, hsh2, hfrom2, hout⟩ := splice_ok hsh hsb hst (j := b.scroll_top)
    refine ⟨g2, ?_, hsh2, hfrom2, fun k hk => hout k (by omega)⟩
    simp [TerminalBuffer.scroll_down, hlt, hg1, hg2]
  · exact ⟨b.cells, by rw [TerminalBuffer.scroll_down, if_neg hlt], hsh,
      CellsFrom_refl _, fun k _ => rfl⟩

/-- `clear_screen` blanks every cell, homes the cursor and changes nothing
else; the grid keeps its outline (row count and each row's length). -/
theorem clear_screen_spec (b : TerminalBuffer) :
    b.clear_screen.cursor_x = 0 ∧ b.clear_screen.cursor_y = 0 ∧
    (∀ row ∈ b.clear_screen.cells, ∀ c ∈ row, c = Cell.default) := by
  refine ⟨rfl, rfl, ?_⟩
  intro row hrow c hc
  simp only [TerminalBuffer.clear_screen] at hrow
  obtain ⟨row0, _, hrow0⟩ := List.mem_map.mp hrow
  subst hrow0
  obtain ⟨c0, _, hc0⟩ := List.mem_map.mp hc
  exact hc0.symm

theorem clear_screen_inv {C R : Nat} {b : TerminalBuffer} (h : Inv C R b) :
    Inv C R b.clear_screen ∧ CellsFrom b.clear_screen.cells b.cells := by
  obtain ⟨hc, hr, ⟨hlen, hrows⟩, hcx, hcy, hst, hsb⟩ := h
  constructor
  · refine ⟨hc, hr, ⟨?_, ?_⟩, ?_, ?_, hst, hsb⟩
    · simpa [TerminalBuffer.clear_screen] using hlen
    · intro row hrow
      simp only [TerminalBuffer.clear_screen] at hrow
      obtain ⟨row0, hrow0, heq⟩ := List.mem_map.mp hrow
      subst heq
      simpa using hrows row0 hrow0
    · simp only [TerminalBuffer.clear_screen]
      omega
    · simp only [TerminalBuffer.clear_screen]
      omega
  · intro row hrow c hc2
    exact Or.inr (((clear_screen_spec b).2.2 row hrow c hc2).trans blank_eq)

/-- `erase_line` under the invariant: succeeds, touches only `cells`,
preserves the shape and writes only default blank cells. -/
theorem erase_line_ok {C R : Nat} {b : TerminalBuffer} (h : Inv C R b) (m : Nat) :
    ∃ g2, b.erase_line m = some { b with cells := g2 } ∧ GridShape g2 C R ∧
      CellsFrom g2 b.cells := by
  obtain ⟨hc, hr, hsh, hcx, hcy, hst, hsb⟩ := h
  subst hc hr
  have hguard : ¬ b.cursor_y ≥ b.rows := by omega
  by_cases h0 : m = 0
  · obtain ⟨g2, hg2, hsh2, hfrom2⟩ := setCells_ok hcy
      (List.range' b.cursor_x (b.cols - b.cursor_x)) b.cells hsh
      (fun x hx => by have := List.mem_range'_1.mp hx; omega)
    exact ⟨g2, by simp [TerminalBuffer.erase_line, hguard, h0, hg2], hsh2, hfrom2⟩
  · by_cases h1 : m = 1
    · obtain ⟨g2, hg2, hsh2, hfrom2⟩ := setCells_ok hcy
        (List.range (min b.cursor_x (b.cols - 1) + 1)) b.cells hsh
        (fun x hx => by have := List.mem_range.mp hx; omega)
      exact ⟨g2, by simp [TerminalBuffer.erase_line, hguard, h0, h1, hg2], hsh2, hfrom2⟩
    · by_cases h2 : m = 2
      · obtain ⟨g2, hg2, hsh2, hfrom2⟩ := setCells_ok hcy
          (List.range b.cols) b.cells hsh
          (fun x hx => by have := List.mem_range.mp hx; omega)
        exact ⟨g2, by simp [TerminalBuffer.erase_line, hguard, h0, h1, h2, hg2], hsh2, hfrom2⟩
      · exact ⟨b.cells, by simp [TerminalBuffer.erase_line, hguard, h0, h1, h2], hsh,
          CellsFrom_refl _⟩

/-- `erase_display` under the invariant: succeeds, preserves the invariant and
writes only default blank cells. -/
theorem erase_display_ok {C R : Nat} {b : TerminalBuffer} (h : Inv C R b) (m : Nat) :
    ∃ b2, b.erase_display m = some b2 ∧ Inv C R b2 ∧ CellsFrom b2.cells b.cells := by
  have hInv := h
  obtain ⟨hc, hr, hsh, hcx, hcy, hst, hsb⟩ := h
  subst hc hr
  by_cases h0 : m = 0
  · obtain ⟨g1, hg1, hsh1, hfrom1⟩ := erase_line_ok hInv 0
    obtain ⟨g2, hg2, hsh2, hfrom2⟩ := clearRows_ok
      (List.range' (b.cursor_y + 1) (b.rows - (b.cursor_y + 1))) g1 hsh1
      (fun y hy => by have := List.mem_range'_1.mp hy; omega)
    refine ⟨{ b with cells := g2 }, ?_, ⟨rfl, rfl, hsh2, hcx, hcy, hst, hsb⟩,
      CellsFrom_trans hfrom1 hfrom2⟩
    simp [TerminalBuffer.erase_display, h0, hg1, hg2]
  · by_cases h1 : m = 1
    · obtain ⟨g1, hg1, hsh1, hfrom1⟩ := clearRows_ok (List.range b.cursor_y) b.cells hsh
        (fun y hy => by have := List.mem_range.mp hy; omega)
      have hInv1 : Inv b.cols b.rows { b with cells := g1 } :=
        ⟨rfl, rfl, hsh1, hcx, hcy, hst, hsb⟩
      obtain ⟨g2, hg2, hsh2, hfrom2⟩ := erase_line_ok hInv1 1
      refine ⟨{ b with cells := g2 }, ?_, ⟨rfl, rfl, hsh2, hcx, hcy, hst, hsb⟩,
        CellsFrom_trans hfrom1 hfrom2⟩
      simp [TerminalBuffer.erase_display, h0, h1, hg1]
      simpa using hg2
    · by_cases h2 : m = 2 ∨ m = 3
      · obtain ⟨hInv2, hfrom2⟩ := clear_screen_inv hInv
        exact ⟨b.clear_screen, by simp [TerminalBuffer.erase_display, h0, h1, h2], hInv2, hfrom2⟩
      · exact ⟨b, by simp [TerminalBuffer.erase_display, h0, h1, h2], hInv, CellsFrom_refl _⟩

/-- The ECH (`CSI n X`) write loop under the invariant. -/
theorem ech_fold_ok {C R : Nat} {b : TerminalBuffer} (h : Inv C R b) (n : Nat) :
    ∃ g2,
      (List.range n).foldlM
        (fun g i =>
          if (b.cursor_x + i) % USIZE < b.cols ∧ b.cursor_y < b.rows then
            setCell g b.cursor_y ((b.cursor_x + i) % USIZE) Cell.default
          else some g)
        b.cells = some g2 ∧ GridShape g2 C R ∧ CellsFrom g2 b.cells := by
  obtain ⟨hc, hr, hsh, hcx, hcy, hst, hsb⟩ := h
  subst hc hr
  have := foldlM_inv (fun g => GridShape g b.cols b.rows ∧ CellsFrom g b.cells)
    (fun g i =>
      if (b.cursor_x + i) % USIZE < b.cols ∧ b.cursor_y < b.rows then
        setCell g b.cursor_y ((b.cursor_x + i) % USIZE) Cell.default
      else some g)
    (fun g i hg => by
      by_cases hcond : (b.cursor_x + i) % USIZE < b.cols ∧ b.cursor_y < b.rows
      · obtain ⟨g2, hg2, hsh2, hcell2⟩ := setCell_ok hg.1 hcond.2 hcond.1 Cell.default
        refine ⟨g2, by simpa [hcond] using hg2, hsh2, ?_⟩
        refine CellsFrom_trans hg.2 ?_
        intro row hrow c hcm
        rcases hcell2 row hrow c hcm with h2 | h2
        · exact Or.inl h2
        · exact Or.inr (h2.trans blank_eq)
      · exact ⟨g, by simp [hcond], hg⟩)
    (List.range n) b.cells ⟨hsh, CellsFrom_refl _⟩
  obtain ⟨g2, hg2, hsh2, hfrom2⟩ := this
  exact ⟨g2, hg2, hsh2, hfrom2⟩

/-- `insert_lines` under the invariant: succeeds, touches only `cells`,
preserves the shape and introduces only blank rows. -/
theorem insert_lines_ok {C R : Nat} {b : TerminalBuffer} (h : Inv C R b) (n : Nat) :
    ∃ g2, b.insert_lines n = some { b with cells := g2 } ∧ GridShape g2 C R ∧
      CellsFrom g2 b.cells := by
  obtain ⟨hc, hr, hsh, hcx, hcy, hst, hsb⟩ := h
  subst hc hr
  have := foldlM_inv
    (fun b2 => ∃ g2, b2 = { b with cells := g2 } ∧ GridShape g2 b.cols b.rows ∧
      CellsFrom g2 b.cells)
    (fun b2 _ =>
      if b2.cursor_y ≤ b2.scroll_bottom then do
        let g ← vecRemove b2.cells b2.scroll_bottom
        let g ← vecInsert g b2.cursor_y (blankRow b2.cols)
        some { b2 with cells := g }
      else some b2)
    (fun b2 u hP => by
      obtain ⟨g0, rfl, hsh0, hfrom0⟩ := hP
      by_cases hcond : b.cursor_y ≤ b.scroll_bottom
      · obtain ⟨g1, g2, hg1, hg2, hsh2, hfrom2, _⟩ := splice_ok hsh0 hsb hcy
        exact ⟨{ b with cells := g2 }, by simp [hcond, hg1, hg2],
          g2, rfl, hsh2, CellsFrom_trans hfrom0 hfrom2⟩
      · exact ⟨{ b with cells := g0 }, by simp [hcond], g0, rfl, hsh0, hfrom0⟩)
    (List.range n) b ⟨b.cells, rfl, hsh, CellsFrom_refl _⟩
  obtain ⟨b2, hb2, g2, rfl, hsh2, hfrom2⟩ := this
  exact ⟨g2, hb2, hsh2, hfrom2⟩

/-- `delete_lines` under the invariant (dual of `insert_lines_ok`). -/
theorem delete_lines_ok {C R : Nat} {b : TerminalBuffer} (h : Inv C R b) (n : Nat) :
    ∃ g2, b.delete_lines n = some { b with cells := g2 } ∧ GridShape g2 C R ∧
      CellsFrom g2 b.cells := by
  obtain ⟨hc, hr, hsh, hcx, hcy, hst, hsb⟩ := h
  subst hc hr
  have := foldlM_inv
    (fun b2 => ∃ g2, b2 = { b with cells := g2 } ∧ GridShape g2 b.cols b.rows ∧
      CellsFrom g2 b.cells)
    (fun b2 _ =>
      if b2.cursor_y ≤ b2.scroll_bottom then do
        let g ← vecRemove b2.cells b2.cursor_y
        let g ← vecInsert g b2.scroll_bottom (blankRow b2.cols)
        some { b2 with cells := g }
      else some b2)
    (fun b2 u hP => by
      obtain ⟨g0, rfl, hsh0, hfrom0⟩ := hP
      by_cases hcond : b.cursor_y ≤ b.scroll_bottom
      · obtain ⟨g1, g2, hg1, hg2, hsh2, hfrom2, _⟩ := splice_ok hsh0 hcy hsb
        exact ⟨{ b with cells := g2 }, by simp [hcond, hg1, hg2],
          g2, rfl, hsh2, CellsFrom_trans hfrom0 hfrom2⟩
      · exact ⟨{ b with cells := g0 }, by simp [hcond], g0, rfl, hsh0, hfrom0⟩)
    (List.range n) b ⟨b.cells, rfl, hsh, CellsFrom_refl _⟩
  obtain ⟨b2, hb2, g2, rfl, hsh2, hfrom2⟩ := this
  exact ⟨g2, hb2, hsh2, hfrom2⟩

theorem delete_chars_row_fold (x : Nat) (n : Nat) (row : List Cell) :
    ((List.range n).foldl
        (fun row _ => if x < row.length then row.eraseIdx x ++ [Cell.default] else row)
        row).length = row.length ∧
      RowFrom ((List.range n).foldl
        (fun row _ => if x < row.length then row.eraseIdx x ++ [Cell.default] else row)
        row) row := by
  induction n with
  | zero => exact ⟨rfl, fun c hc => Or.inl hc⟩
  | succ n ih =>
    rw [List.range_succ, List.foldl_append]
    obtain ⟨ihlen, ihfrom⟩ := ih
    set r := (List.range n).foldl
      (fun row _ => if x < row.length then row.eraseIdx x ++ [Cell.default] else row) row
    simp only [List.foldl_cons, List.foldl_nil]
    by_cases hx : x < r.length
    · constructor
      · simp [hx, List.length_eraseIdx_of_lt hx]
        omega
      · intro c hc
        simp only [hx, if_pos] at hc
        rcases List.mem_append.mp hc with h2 | h2
        · exact ihfrom c (List.eraseIdx_subset _ _ h2)
        · exact Or.inr (by simpa using h2)
    · simpa [hx] using ⟨ihlen, ihfrom⟩

/-- `delete_chars` under the invariant. -/
theorem delete_chars_ok {C R : Nat} {b : TerminalBuffer} (h : Inv C R b) (n : Nat) :
    ∃ g2, b.delete_chars n = some { b with cells := g2 } ∧ GridShape g2 C R ∧
      CellsFrom g2 b.cells := by
  obtain ⟨hc, hr, hsh, hcx, hcy, hst, hsb⟩ := h
  subst hc hr
  have hguard : ¬ b.cursor_y ≥ b.rows := by omega
  obtain ⟨row, hget, hlen, hmem⟩ := GridShape.row_get hsh hcy
  obtain ⟨hlen2, hfrom2⟩ := delete_chars_row_fold b.cursor_x n row
  set r2 := (List.range n).foldl
    (fun row _ => if b.cursor_x < row.length then row.eraseIdx b.cursor_x ++ [Cell.default]
                  else row) row with hr2def
  refine ⟨b.cells.set b.cursor_y r2, ?_, ⟨by simp [hsh.1], ?_⟩, ?_⟩
  · simp [TerminalBuffer.delete_chars, hguard, hget, ← hr2def]
  · intro row2 hrow2
    rcases List.mem_or_eq_of_mem_set hrow2 with h2 | h2
    · exact hsh.2 _ h2
    · rw [h2, hlen2, hlen]
  · intro row2 hrow2 c hcm
    rcases List.mem_or_eq_of_mem_set hrow2 with h2 | h2
    · exact Or.inl ⟨row2, h2, hcm⟩
    · subst h2
      rcases hfrom2 c hcm with h3 | h3
      · exact Or.inl ⟨row, hmem, h3⟩
      · exact Or.inr (h3.trans blank_eq)

/-- `insert_chars` under the invariant. -/
theorem insert_chars_ok {C R : Nat} {b : TerminalBuffer} (h : Inv C R b) (n : Nat) :
    ∃ g2, b.insert_chars n = some { b with cells := g2 } ∧ GridShape g2 C R ∧
      CellsFrom g2 b.cells := by
  obtain ⟨hc, hr, hsh, hcx, hcy, hst, hsb⟩ := h
  subst hc hr
  have hguard : ¬ b.cursor_y ≥ b.rows := by omega
  obtain ⟨row, hget, hlen, hmem⟩ := GridShape.row_get hsh hcy
  have hfold := foldlM_inv (fun r => r.length = b.cols ∧ RowFrom r row)
    (fun r _ =>
      if b.cursor_x < b.cols then
        match vecInsert r b.cursor_x Cell.default with
        | some r2 => some (r2.take b.cols)
        | none => none
      else some r)
    (fun r u hP => by
      obtain ⟨hPl, hPf⟩ := hP
      by_cases hcond : b.cursor_x < b.cols
      · have hle : b.cursor_x ≤ r.length := by omega
        have hins : vecInsert r b.cursor_x Cell.default =
            some (r.insertIdx b.cursor_x Cell.default) := by simp [vecInsert, hle]
        refine ⟨(r.insertIdx b.cursor_x Cell.default).take b.cols,
          by simp [hcond, hins], ?_, ?_⟩
        · simp [List.length_insertIdx _ _ hle]
          omega
        · intro c hcm
          have hcm2 := List.mem_of_mem_take hcm
          rcases (List.mem_insertIdx hle).mp hcm2 with h2 | h2
          · exact Or.inr h2
          · exact hPf c h2
      · exact ⟨r, by simp [hcond], hPl, hPf⟩)
    (List.range n) row ⟨hlen, fun c hcm => Or.inl hcm⟩
  obtain ⟨r2, hr2, hr2len, hr2from⟩ := hfold
  refine ⟨b.cells.set b.cursor_y r2, ?_, ⟨by simp [hsh.1], ?_⟩, ?_⟩
  · simp [TerminalBuffer.insert_chars, hguard, hget, hr2]
  · intro row2 hrow2
    rcases List.mem_or_eq_of_mem_set hrow2 with h2 | h2
    · exact hsh.2 _ h2
    · rw [h2, hr2len]
  · intro row2 hrow2 c hcm
    rcases List.mem_or_eq_of_mem_set hrow2 with h2 | h2
    · exact Or.inl ⟨row2, h2, hcm⟩
    · subst h2
      rcases hr2from c hcm with h3 | h3
      · exact Or.inl ⟨row, hmem, h3⟩
      · exact Or.inr (h3.trans blank_eq)

/-- `newline` (and `index`) under the invariant. -/
theorem newline_ok {C R : Nat} {b : TerminalBuffer} (h : Inv C R b) :
    ∃ b2, b.newline = some b2 ∧ Inv C R b2 := by
  have hInv := h
  obtain ⟨hc, hr, hsh, hcx, hcy, hst, hsb⟩ := h
  subst hc hr
  by_cases hcond : b.cursor_y ≥ b.scroll_bottom
  · obtain ⟨g2, hg2, hsh2, _, _⟩ := scroll_up_ok hInv
    exact ⟨{ b with cells := g2 }, by simp [TerminalBuffer.newline, hcond, hg2],
      rfl, rfl, hsh2, hcx, hcy, hst, hsb⟩
  · exact ⟨{ b with cursor_y := b.cursor_y + 1 },
      by simp [TerminalBuffer.newline, hcond], rfl, rfl, hsh, hcx,
      by show b.cursor_y + 1 < b.rows; omega, hst, hsb⟩

theorem index_ok {C R : Nat} {b : TerminalBuffer} (h : Inv C R b) :
    ∃ b2, b.index = some b2 ∧ Inv C R b2 := by
  obtain ⟨b2, hb2, hInv2⟩ := newline_ok h
  exact ⟨b2, hb2, hInv2⟩

theorem reverse_index_ok {C R : Nat} {b : TerminalBuffer} (h : Inv C R b) :
    ∃ b2, b.reverse_index = some b2 ∧ Inv C R b2 := by
  have hInv := h
  obtain ⟨hc, hr, hsh, hcx, hcy, hst, hsb⟩ := h
  subst hc hr
  by_cases hcond : b.cursor_y ≤ b.scroll_top
  · obtain ⟨g2, hg2, hsh2, _, _⟩ := scroll_down_ok hInv
    exact ⟨{ b with cells := g2 }, by simp [TerminalBuffer.reverse_index, hcond, hg2],
      rfl, rfl, hsh2, hcx, hcy, hst, hsb⟩
  · exact ⟨{ b with cursor_y := b.cursor_y - 1 },
      by simp [TerminalBuffer.reverse_index, hcond], rfl, rfl, hsh, hcx,
      by show b.cursor_y - 1 < b.rows; omega, hst, hsb⟩

/-- `put_char` under the invariant. -/
theorem put_char_ok {C R : Nat} {b : TerminalBuffer} (h : Inv C R b) (c : Char) :
    ∃ b2, b.put_char c = some b2 ∧ Inv C R b2 := by
  obtain ⟨hc, hr, hsh, hcx, hcy, hst, hsb⟩ := h
  subst hc hr
  have hcond : b.cursor_y < b.rows ∧ b.cursor_x < b.cols := ⟨hcy, hcx⟩
  obtain ⟨g1, hg1, hsh1, _⟩ := setCell_ok hsh hcy hcx { c := c, attrs := b.current_attrs }
  by_cases hwrap : b.cursor_x + 1 ≥ b.cols
  · have hInv1 : Inv b.cols b.rows { b with cells := g1, cursor_x := 0 } :=
      ⟨rfl, rfl, hsh1, by show 0 < b.cols; omega, hcy, hst, hsb⟩
    obtain ⟨b2, hb2, hInv2⟩ := newline_ok hInv1
    refine ⟨b2, ?_, hInv2⟩
    simpa [TerminalBuffer.put_char, hcond, hg1, hwrap] using hb2
  · refine ⟨{ b with cells := g1, cursor_x := b.cursor_x + 1 }, ?_,
      rfl, rfl, hsh1, by show b.cursor_x + 1 < b.cols; omega, hcy, hst, hsb⟩
    simp [TerminalBuffer.put_char, hcond, hg1, hwrap]

theorem min_last_lt {a r : Nat} (hr : 0 < r) : min a (r - 1) < r := by
  have := Nat.min_le_right a (r - 1)
  omega

theorem Inv_cells {C R : Nat} {b : TerminalBuffer} (h : Inv C R b) {g : List (List Cell)}
    (hg : GridShape g C R) : Inv C R { b with cells := g } :=
  ⟨h.1, h.2.1, hg, h.2.2.2.1, h.2.2.2.2.1, h.2.2.2.2.2.1, h.2.2.2.2.2.2⟩

theorem Inv_cursor {C R : Nat} {b : TerminalBuffer} (h : Inv C R b) {x y : Nat}
    (hx : x < C) (hy : y < R) : Inv C R { b with cursor_x := x, cursor_y := y } :=
  ⟨h.1, h.2.1, h.2.2.1, hx, hy, h.2.2.2.2.2.1, h.2.2.2.2.2.2⟩

theorem Inv_cursor_x {C R : Nat} {b : TerminalBuffer} (h : Inv C R b) {x : Nat}
    (hx : x < C) : Inv C R { b with cursor_x := x } :=
  ⟨h.1, h.2.1, h.2.2.1, hx, h.2.2.2.2.1, h.2.2.2.2.2.1, h.2.2.2.2.2.2⟩

theorem Inv_cursor_y {C R : Nat} {b : TerminalBuffer} (h : Inv C R b) {y : Nat}
    (hy : y < R) : Inv C R { b with cursor_y := y } :=
  ⟨h.1, h.2.1, h.2.2.1, h.2.2.2.1, hy, h.2.2.2.2.2.1, h.2.2.2.2.2.2⟩

theorem Inv_attrs {C R : Nat} {b : TerminalBuffer} (h : Inv C R b) (a : CellAttributes) :
    Inv C R { b with current_attrs := a } :=
  ⟨h.1, h.2.1, h.2.2.1, h.2.2.2.1, h.2.2.2.2.1, h.2.2.2.2.2.1, h.2.2.2.2.2.2⟩

theorem Inv_region {C R : Nat} {b : TerminalBuffer} (h : Inv C R b) {t bo : Nat}
    (ht : t < R) (hbo : bo < R) (hx : 0 < C) (hy : 0 < R) :
    Inv C R { b with scroll_top := t, scroll_bottom := bo, cursor_x := 0, cursor_y := 0 } :=
  ⟨h.1, h.2.1, h.2.2.1, hx, hy, ht, hbo⟩

set_option maxHeartbeats 1000000 in
/-- `execute_csi` under the invariant: every final byte succeeds and
preserves the invariant. -/
theorem execute_csi_ok {C R : Nat} {b : TerminalBuffer} (h : Inv C R b) (fb : Nat) :
    ∃ b2, b.execute_csi fb = some b2 ∧ Inv C R b2 := by
  have hInv := h
  obtain ⟨hc, hr, hsh, hcx, hcy, hst, hsb⟩ := h
  subst hc hr
  by_cases h65 : fb = 65
  · subst h65; exact ⟨_, rfl, Inv_cursor_y hInv (by omega)⟩
  by_cases h66 : fb = 66
  · subst h66; exact ⟨_, rfl, Inv_cursor_y hInv (min_last_lt (by omega))⟩
  by_cases h67 : fb = 67
  · subst h67; exact ⟨_, rfl, Inv_cursor_x hInv (min_last_lt (by omega))⟩
  by_cases h68 : fb = 68
  · subst h68; exact ⟨_, rfl, Inv_cursor_x hInv (by omega)⟩
  by_cases h69 : fb = 69
  · subst h69; exact ⟨_, rfl, Inv_cursor hInv (by omega) (min_last_lt (by omega))⟩
  by_cases h70 : fb = 70
  · subst h70; exact ⟨_, rfl, Inv_cursor hInv (by omega) (by omega)⟩
  by_cases h71 : fb = 71
  · subst h71; exact ⟨_, rfl, Inv_cursor_x hInv (min_last_lt (by omega))⟩
  by_cases h72 : fb = 72 ∨ fb = 102
  · have heq : b.execute_csi fb = some
        { b with cursor_y := min (max (b.parse_params.headD 1) 1 - 1) (b.rows - 1),
                 cursor_x := min (max (b.parse_params.getD 1 1) 1 - 1) (b.cols - 1) } := by
      simp only [TerminalBuffer.execute_csi]
      rw [if_neg h65, if_neg h66, if_neg h67, if_neg h68, if_neg h69, if_neg h70, if_neg h71,
        if_pos h72]
    exact ⟨_, heq, Inv_cursor hInv (min_last_lt (by omega)) (min_last_lt (by omega))⟩
  by_cases h74 : fb = 74
  · subst h74
    obtain ⟨b2, hb2, hInv2, _⟩ := erase_display_ok hInv (b.parse_params.headD 0)
    exact ⟨b2, hb2, hInv2⟩
  by_cases h75 : fb = 75
  · subst h75
    obtain ⟨g2, hg2, hsh2, _⟩ := erase_line_ok hInv (b.parse_params.headD 0)
    exact ⟨_, hg2, Inv_cells hInv hsh2⟩
  by_cases h76 : fb = 76
  · subst h76
    obtain ⟨g2, hg2, hsh2, _⟩ := insert_lines_ok hInv (max (b.parse_params.headD 1) 1)
    exact ⟨_, hg2, Inv_cells hInv hsh2⟩
  by_cases h77 : fb = 77
  · subst h77
    obtain ⟨g2, hg2, hsh2, _⟩ := delete_lines_ok hInv (max (b.parse_params.headD 1) 1)
    exact ⟨_, hg2, Inv_cells hInv hsh2⟩
  by_cases h80 : fb = 80
  · subst h80
    obtain ⟨g2, hg2, hsh2, _⟩ := delete_chars_ok hInv (max (b.parse_params.headD 1) 1)
    exact ⟨_, hg2, Inv_cells hInv hsh2⟩
  by_cases h64 : fb = 64
  · subst h64
    obtain ⟨g2, hg2, hsh2, _⟩ := insert_chars_ok hInv (max (b.parse_params.headD 1) 1)
    exact ⟨_, hg2, Inv_cells hInv hsh2⟩
  by_cases h109 : fb = 109
  · subst h109; exact ⟨_, rfl, Inv_attrs hInv _⟩
  by_cases h114 : fb = 114
  · subst h114
    exact ⟨_, rfl, Inv_region hInv (min_last_lt (by omega)) (min_last_lt (by omega))
      (by omega) (by omega)⟩
  by_cases h100 : fb = 100
  · subst h100; exact ⟨_, rfl, Inv_cursor_y hInv (min_last_lt (by omega))⟩
  by_cases h88 : fb = 88
  · subst h88
    obtain ⟨g2, hg2, hsh2, _⟩ := ech_fold_ok hInv (max (b.parse_params.headD 1) 1)
    refine ⟨{ b with cells := g2 }, ?_, Inv_cells hInv hsh2⟩
    rw [show TerminalBuffer.execute_csi b 88 =
        ((List.range (max (b.parse_params.headD 1) 1)).foldlM
          (fun g i =>
            if (b.cursor_x + i) % USIZE < b.cols ∧ b.cursor_y < b.rows then
              setCell g b.cursor_y ((b.cursor_x + i) % USIZE) Cell.default
            else some g)
          b.cells).map (fun g => { b with cells := g }) from rfl, hg2]
    rfl
  by_cases h83 : fb = 83
  · subst h83
    obtain ⟨b2, hb2, hInv2⟩ := foldlM_inv (Inv b.cols b.rows) (fun bb _ => bb.scroll_up)
      (fun bb u hP => by
        obtain ⟨g2, hg2, hsh2, _, _⟩ := scroll_up_ok hP
        exact ⟨_, hg2, Inv_cells hP hsh2⟩)
      (List.range (max (b.parse_params.headD 1) 1)) b hInv
    exact ⟨b2, hb2, hInv2⟩
  by_cases h84 : fb = 84
  · subst h84
    obtain ⟨b2, hb2, hInv2⟩ := foldlM_inv (Inv b.cols b.rows) (fun bb _ => bb.scroll_down)
      (fun bb u hP => by
        obtain ⟨g2, hg2, hsh2, _, _⟩ := scroll_down_ok hP
        exact ⟨_, hg2, Inv_cells hP hsh2⟩)
      (List.range (max (b.parse_params.headD 1) 1)) b hInv
    exact ⟨b2, hb2, hInv2⟩
  refine ⟨b, ?_, hInv⟩
  simp only [TerminalBuffer.execute_csi]
  rw [if_neg h65, if_neg h66, if_neg h67, if_neg h68, if_neg h69, if_neg h70, if_neg h71,
    if_neg h72, if_neg h74, if_neg h75, if_neg h76, if_neg h77, if_neg h80, if_neg h64,
    if_neg h109, if_neg h114, if_neg h100, if_neg h88, if_neg h83, if_neg h84]

/-- `Inv` only looks at the grid, cursor, dimensions and scroll marks. -/
theorem Inv_congr {C R : Nat} {b b2 : TerminalBuffer} (h : Inv C R b)
    (hcells : b2.cells = b.cells) (hx : b2.cursor_x = b.cursor_x)
    (hy : b2.cursor_y = b.cursor_y) (hcols : b2.cols = b.cols) (hrows : b2.rows = b.rows)
    (hst : b2.scroll_top = b.scroll_top) (hsb : b2.scroll_bottom = b.scroll_bottom) :
    Inv C R b2 := by
  unfold Inv at h ⊢
  rw [hcells, hx, hy, hcols, hrows, hst, hsb]
  exact h

theorem foldl_inv {α β : Type} (P : β → Prop) (f : β → α → β)
    (hstep : ∀ b a, P b → P (f b a)) : ∀ (xs : List α) (b : β), P b → P (xs.foldl f b) := by
  intro xs
  induction xs with
  | nil => intro b hb; exact hb
  | cons x xs ih => intro b hb; exact ih (f b x) (hstep b x hb)

/-- `process_ground` under the invariant. -/
theorem process_ground_ok {C R : Nat} {b : TerminalBuffer} (h : Inv C R b) (byte : Nat) :
    ∃ b2, b.process_ground byte = some b2 ∧ Inv C R b2 := by
  have hInv := h
  obtain ⟨hc, hr, hsh, hcx, hcy, hst, hsb⟩ := h
  subst hc hr
  by_cases h27 : byte = 27
  · subst h27; exact ⟨_, rfl, Inv_congr hInv rfl rfl rfl rfl rfl rfl rfl⟩
  by_cases h10 : byte = 10
  · subst h10
    obtain ⟨b2, hb2, hInv2⟩ := newline_ok hInv
    exact ⟨b2, hb2, hInv2⟩
  by_cases h13 : byte = 13
  · subst h13; exact ⟨_, rfl, Inv_cursor_x hInv (by omega)⟩
  by_cases h8 : byte = 8
  · subst h8; exact ⟨_, rfl, Inv_cursor_x hInv (by omega)⟩
  by_cases h9 : byte = 9
  · subst h9
    refine ⟨_, rfl, ?_⟩
    by_cases hx : ((b.cursor_x / 8 + 1) * 8) % USIZE ≥ b.cols
    · rw [if_pos hx]
      exact Inv_cursor_x hInv (by omega)
    · rw [if_neg hx]
      exact Inv_cursor_x hInv (by omega)
  by_cases h7 : byte = 7
  · subst h7; exact ⟨b, rfl, hInv⟩
  by_cases h32 : byte ≥ 32
  · have heq : b.process_ground byte = b.put_char (Char.ofNat byte) := by
      simp only [TerminalBuffer.process_ground]
      rw [if_neg h27, if_neg h10, if_neg h13, if_neg h8, if_neg h9, if_neg h7, if_pos h32]
    obtain ⟨b2, hb2, hInv2⟩ := put_char_ok hInv (Char.ofNat byte)
    refine ⟨b2, ?_, hInv2⟩
    rw [heq]
    exact hb2
  · have heq : b.process_ground byte = some b := by
      simp only [TerminalBuffer.process_ground]
      rw [if_neg h27, if_neg h10, if_neg h13, if_neg h8, if_neg h9, if_neg h7, if_neg h32]
    exact ⟨b, heq, hInv⟩

/-- `process_escape` under the invariant. -/
theorem process_escape_ok {C R : Nat} {b : TerminalBuffer} (h : Inv C R b) (byte : Nat) :
    ∃ b2, b.process_escape byte = some b2 ∧ Inv C R b2 := by
  have hInv := h
  obtain ⟨hc, hr, hsh, hcx, hcy, hst, hsb⟩ := h
  subst hc hr
  by_cases h91 : byte = 91
  · subst h91; exact ⟨_, rfl, Inv_congr hInv rfl rfl rfl rfl rfl rfl rfl⟩
  by_cases h93 : byte = 93
  · subst h93; exact ⟨_, rfl, Inv_congr hInv rfl rfl rfl rfl rfl rfl rfl⟩
  by_cases h99 : byte = 99
  · subst h99
    refine ⟨_, rfl, ?_⟩
    have hsh2 := (clear_screen_inv hInv).1.2.2.1
    exact ⟨rfl, rfl, hsh2, by show 0 < b.cols; omega, by show 0 < b.rows; omega,
      by show 0 < b.rows; omega, by show b.rows - 1 < b.rows; omega⟩
  by_cases h55 : byte = 55
  · subst h55; exact ⟨_, rfl, Inv_congr hInv rfl rfl rfl rfl rfl rfl rfl⟩
  by_cases h56 : byte = 56
  · subst h56
    refine ⟨_, rfl, ?_⟩
    rcases b.saved_cursor with _ | ⟨x, y⟩
    · exact Inv_congr hInv rfl rfl rfl rfl rfl rfl rfl
    · exact ⟨rfl, rfl, hsh, min_last_lt (by omega), min_last_lt (by omega), hst, hsb⟩
  by_cases h68 : byte = 68
  · subst h68
    obtain ⟨b2, hb2, hInv2⟩ := index_ok hInv
    have heq : b.process_escape 68 =
        (b.index >>= fun b => some { b with parser_state := ParserState.Ground }) := rfl
    refine ⟨{ b2 with parser_state := ParserState.Ground }, ?_,
      Inv_congr hInv2 rfl rfl rfl rfl rfl rfl rfl⟩
    rw [heq, hb2]
    rfl
  by_cases h69 : byte = 69
  · subst h69
    obtain ⟨b2, hb2, hInv2⟩ := index_ok (Inv_cursor_x hInv (show 0 < b.cols by omega))
    have heq : b.process_escape 69 =
        (TerminalBuffer.index { b with cursor_x := 0 } >>=
          fun b => some { b with parser_state := ParserState.Ground }) := rfl
    refine ⟨{ b2 with parser_state := ParserState.Ground }, ?_,
      Inv_congr hInv2 rfl rfl rfl rfl rfl rfl rfl⟩
    rw [heq, hb2]
    rfl
  by_cases h77 : byte = 77
  · subst h77
    obtain ⟨b2, hb2, hInv2⟩ := reverse_index_ok hInv
    have heq : b.process_escape 77 =
        (b.reverse_index >>= fun b => some { b with parser_state := ParserState.Ground }) := rfl
    refine ⟨{ b2 with parser_state := ParserState.Ground }, ?_,
      Inv_congr hInv2 rfl rfl rfl rfl rfl rfl rfl⟩
    rw [heq, hb2]
    rfl
  · refine ⟨{ b with parser_state := ParserState.Ground }, ?_,
      Inv_congr hInv rfl rfl rfl rfl rfl rfl rfl⟩
    simp only [TerminalBuffer.process_escape]
    rw [if_neg h91, if_neg h93, if_neg h99, if_neg h55, if_neg h56, if_neg h68, if_neg h69,
      if_neg h77]

/-- `process_csi` under the invariant. -/
theorem process_csi_ok {C R : Nat} {b : TerminalBuffer} (h : Inv C R b) (byte : Nat) :
    ∃ b2, b.process_csi byte = some b2 ∧ Inv C R b2 := by
  have hInv := h
  by_cases h63 : byte = 63
  · subst h63; exact ⟨_, rfl, Inv_congr hInv rfl rfl rfl rfl rfl rfl rfl⟩
  by_cases hdig : (48 ≤ byte ∧ byte ≤ 57) ∨ byte = 59 ∨ byte = 58
  · have heq : b.process_csi byte = some { b with csi_params := b.csi_params ++ [byte] } := by
      simp only [TerminalBuffer.process_csi]
      rw [if_neg h63, if_pos hdig]
    exact ⟨_, heq, Inv_congr hInv rfl rfl rfl rfl rfl rfl rfl⟩
  by_cases hfin : 64 ≤ byte ∧ byte ≤ 126
  · have heq : b.process_csi byte =
        (b.execute_csi byte >>= fun b => some { b with parser_state := ParserState.Ground }) := by
      simp only [TerminalBuffer.process_csi]
      rw [if_neg h63, if_neg hdig, if_pos hfin]
    obtain ⟨b2, hb2, hInv2⟩ := execute_csi_ok hInv byte
    refine ⟨{ b2 with parser_state := ParserState.Ground }, ?_,
      Inv_congr hInv2 rfl rfl rfl rfl rfl rfl rfl⟩
    rw [heq, hb2]
    rfl
  · have heq : b.process_csi byte = some { b with parser_state := ParserState.Ground } := by
      simp only [TerminalBuffer.process_csi]
      rw [if_neg h63, if_neg hdig, if_neg hfin]
    exact ⟨_, heq, Inv_congr hInv rfl rfl rfl rfl rfl rfl rfl⟩

/-- `process_csi_private` preserves the invariant (it is total). -/
theorem process_csi_private_inv {C R : Nat} {b : TerminalBuffer} (h : Inv C R b) (byte : Nat) :
    Inv C R (b.process_csi_private byte) := by
  have hInv := h
  unfold TerminalBuffer.process_csi_private
  by_cases hdig : (48 ≤ byte ∧ byte ≤ 57) ∨ byte = 59
  · rw [if_pos hdig]
    exact Inv_congr hInv rfl rfl rfl rfl rfl rfl rfl
  rw [if_neg hdig]
  by_cases hhl : byte = 104 ∨ byte = 108
  · rw [if_pos hhl]
    have hfold := foldl_inv (Inv C R)
      (fun b param =>
        if param = 25 then { b with cursor_visible := byte == 104 }
        else if param = 1049 then (if byte = 104 then b.clear_screen else b)
        else b)
      (fun bb p hP => by
        dsimp only
        by_cases h25 : p = 25
        · rw [if_pos h25]
          exact Inv_congr hP rfl rfl rfl rfl rfl rfl rfl
        rw [if_neg h25]
        by_cases h1049 : p = 1049
        · rw [if_pos h1049]
          by_cases h104 : byte = 104
          · rw [if_pos h104]
            exact (clear_screen_inv hP).1
          · rw [if_neg h104]
            exact hP
        · rw [if_neg h1049]
          exact hP)
      b.parse_params b hInv
    exact Inv_congr hfold rfl rfl rfl rfl rfl rfl rfl
  · rw [if_neg hhl]
    exact Inv_congr hInv rfl rfl rfl rfl rfl rfl rfl

/-- `process_osc` preserves the invariant (it is total). -/
theorem process_osc_inv {C R : Nat} {b : TerminalBuffer} (h : Inv C R b) (byte : Nat) :
    Inv C R (b.process_osc byte) := by
  unfold TerminalBuffer.process_osc
  by_cases h7 : byte = 7
  · rw [if_pos h7]; exact Inv_congr h rfl rfl rfl rfl rfl rfl rfl
  rw [if_neg h7]
  by_cases h27 : byte = 27
  · rw [if_pos h27]; exact Inv_congr h rfl rfl rfl rfl rfl rfl rfl
  rw [if_neg h27]
  by_cases hlen : (b.osc_buffer ++ [byte]).length > 4096
  · rw [if_pos hlen]; exact Inv_congr h rfl rfl rfl rfl rfl rfl rfl
  · rw [if_neg hlen]; exact Inv_congr h rfl rfl rfl rfl rfl rfl rfl

/-- One `write_byte` step succeeds and preserves the invariant. -/
theorem write_byte_ok {C R : Nat} {b : TerminalBuffer} (h : Inv C R b) (byte : Nat) :
    ∃ b2, b.write_byte byte = some b2 ∧ Inv C R b2 := by
  rcases hstate : b.parser_state with _ | _ | _ | _ | _
  case Ground =>
    have heq : b.write_byte byte = b.process_ground byte := by
      unfold TerminalBuffer.write_byte
      rw [hstate]
    obtain ⟨b2, hb2, hInv2⟩ := process_ground_ok h byte
    exact ⟨b2, heq ▸ hb2, hInv2⟩
  case Escape =>
    have heq : b.write_byte byte = b.process_escape byte := by
      unfold TerminalBuffer.write_byte
      rw [hstate]
    obtain ⟨b2, hb2, hInv2⟩ := process_escape_ok h byte
    exact ⟨b2, heq ▸ hb2, hInv2⟩
  case Csi =>
    have heq : b.write_byte byte = b.process_csi byte := by
      unfold TerminalBuffer.write_byte
      rw [hstate]
    obtain ⟨b2, hb2, hInv2⟩ := process_csi_ok h byte
    exact ⟨b2, heq ▸ hb2, hInv2⟩
  case CsiPrivate =>
    have heq : b.write_byte byte = some (b.process_csi_private byte) := by
      unfold TerminalBuffer.write_byte
      rw [hstate]
    exact ⟨_, heq, process_csi_private_inv h byte⟩
  case Osc =>
    have heq : b.write_byte byte = some (b.process_osc byte) := by
      unfold TerminalBuffer.write_byte
      rw [hstate]
    exact ⟨_, heq, process_osc_inv h byte⟩

/-- Feeding any byte list succeeds and preserves the invariant. -/
theorem writeBytes_ok {C R : Nat} {b : TerminalBuffer} (h : Inv C R b) (bs : List Nat) :
    ∃ b2, writeBytes b bs = some b2 ∧ Inv C R b2 :=
  foldlM_inv (Inv C R) TerminalBuffer.write_byte (fun _ byte hb => write_byte_ok hb byte) bs b h

/-- A freshly created buffer with at least one column and row satisfies the
invariant. -/
theorem Inv_new {C R : Nat} (hC : 1 ≤ C) (hR : 1 ≤ R) : Inv C R (TerminalBuffer.new C R) := by
  refine ⟨rfl, rfl, ⟨by simp [TerminalBuffer.new], ?_⟩, hC, hR, hR, ?_⟩
  · intro row hrow
    rw [List.eq_of_mem_replicate hrow]
    simp [blankRow]
  · show R - 1 < R
    omega

/-! ### Claim theorems -/

/-- C1: for every byte sequence fed one byte at a time (`write_byte`) to a
fresh 80×24 buffer with no intervening resize, processing succeeds and after
every single byte the cursor satisfies `cursor_x < 80` and `cursor_y < 24`
(the lower bounds `0 ≤ _` are inherent to `Nat`).  Quantifying over all byte
lists covers every prefix, i.e. the state after each single byte. -/
theorem C1_cursor_in_bounds (bs : List Nat) :
    ∃ b2, writeBytes (TerminalBuffer.new 80 24) bs = some b2 ∧
      b2.cursor_x < 80 ∧ b2.cursor_y < 24 := by
  obtain ⟨b2, hb2, hInv⟩ := writeBytes_ok (@Inv_new 80 24 (by omega) (by omega)) bs
  exact ⟨b2, hb2, hInv.1 ▸ hInv.2.2.2.1, hInv.2.1 ▸ hInv.2.2.2.2.1⟩

/-- C2: for every byte sequence fed to a buffer created with `cols ≥ 1`,
`rows ≥ 1`, processing never panics (every `write_byte` returns `some`) and
the grid stays exactly `rows` rows of exactly `cols` cells; in particular
five newline bytes into a fresh 3-row buffer (which has `scroll_top = 0`,
`scroll_bottom = 2`) leave exactly 3 rows. -/
theorem C2_grid_always_full {C R : Nat} (hC : 1 ≤ C) (hR : 1 ≤ R) (bs : List Nat) :
    (∃ b2, writeBytes (TerminalBuffer.new C R) bs = some b2 ∧
      b2.cells.length = R ∧ ∀ row ∈ b2.cells, row.length = C) ∧
    (∃ b3, writeBytes (TerminalBuffer.new C 3) (List.replicate 5 10) = some b3 ∧
      (TerminalBuffer.new C 3).scroll_top = 0 ∧ (TerminalBuffer.new C 3).scroll_bottom = 2 ∧
      b3.cells.length = 3) := by
  constructor
  · obtain ⟨b2, hb2, hInv⟩ := writeBytes_ok (Inv_new hC hR) bs
    exact ⟨b2, hb2, hInv.2.2.1.1, hInv.2.2.1.2⟩
  · obtain ⟨b3, hb3, hInv⟩ := writeBytes_ok (@Inv_new C 3 hC (by omega)) (List.replicate 5 10)
    exact ⟨b3, hb3, rfl, rfl, hInv.2.2.1.1⟩

theorem C2_grid_always_full_witness :
    1 ≤ 80 ∧ 1 ≤ 24 ∧
    ((∃ b2, writeBytes (TerminalBuffer.new 80 24) (List.replicate 5 10) = some b2 ∧
        b2.cells.length = 24 ∧ ∀ row ∈ b2.cells, row.length = 80) ∧
      (∃ b3, writeBytes (TerminalBuffer.new 80 3) (List.replicate 5 10) = some b3 ∧
        (TerminalBuffer.new 80 3).scroll_top = 0 ∧
        (TerminalBuffer.new 80 3).scroll_bottom = 2 ∧ b3.cells.length = 3)) :=
  ⟨by omega, by omega,
    C2_grid_always_full (by omega) (by omega) (List.replicate 5 10)⟩

/-- C3 counterexample: the claim says every operation preserves
`scroll_top ≤ scroll_bottom < rows`, in particular CSI r.  But the source
never validates `top ≤ bottom`: feeding `ESC [ 5 ; 2 r` to a fresh 80×24
buffer yields `scroll_top = 4 > scroll_bottom = 1`. -/
theorem C3_counterexample :
    (writeBytes (TerminalBuffer.new 80 24) [27, 91, 53, 59, 50, 114]).map
      (fun b => (b.scroll_top, b.scroll_bottom)) = some (4, 1) ∧ ¬ (4 ≤ 1) := by
  constructor
  · decide
  · omega

/-- C3 amended: every `write_byte` step (CSI r included) keeps
`scroll_top < rows` and `scroll_bottom < rows`, and a resize forces
`scroll_bottom < new_rows` while leaving `scroll_top` untouched (it is not
re-clamped); the ordering `scroll_top ≤ scroll_bottom` is NOT maintained
(see the counterexample). -/
theorem C3_amended {C R : Nat} (hC : 1 ≤ C) (hR : 1 ≤ R) (bs : List Nat)
    (b : TerminalBuffer) (C2 R2 : Nat) (hR2 : 1 ≤ R2) :
    (∃ b2, writeBytes (TerminalBuffer.new C R) bs = some b2 ∧
      b2.scroll_top < R ∧ b2.scroll_bottom < R) ∧
    (b.resize C2 R2).scroll_bottom < R2 ∧ (b.resize C2 R2).scroll_top = b.scroll_top := by
  refine ⟨?_, ?_, rfl⟩
  · obtain ⟨b2, hb2, hInv⟩ := writeBytes_ok (Inv_new hC hR) bs
    exact ⟨b2, hb2, hInv.2.2.2.2.2.1, hInv.2.2.2.2.2.2⟩
  · show R2 - 1 < R2
    omega

theorem C3_amended_witness :
    1 ≤ 80 ∧ 1 ≤ 24 ∧ 1 ≤ 10 ∧
    ((∃ b2, writeBytes (TerminalBuffer.new 80 24) [27, 91, 53, 59, 50, 114] = some b2 ∧
        b2.scroll_top < 24 ∧ b2.scroll_bottom < 24) ∧
      ((TerminalBuffer.new 80 24).resize 40 10).scroll_bottom < 10 ∧
      ((TerminalBuffer.new 80 24).resize 40 10).scroll_top =
        (TerminalBuffer.new 80 24).scroll_top) :=
  ⟨by omega, by omega, by omega,
    C3_amended (by omega) (by omega) [27, 91, 53, 59, 50, 114]
      (TerminalBuffer.new 80 24) 40 10 (by omega)⟩

/-- C4 counterexample: the claim says `scroll_bottom` keeps its previous value
whenever that value is already within the new bounds.  After `ESC [1;1r` a
fresh 80×24 buffer has `scroll_bottom = 0`; resizing to the same 80×24 (so
`0 < 24` is in bounds) must then keep `scroll_bottom = 0`, but `resize`
unconditionally sets it to `new_rows - 1 = 23`. -/
theorem C4_counterexample :
    (writeBytes (TerminalBuffer.new 80 24) [27, 91, 49, 59, 49, 114]).map
      (fun b => (b.scroll_bottom, (b.resize 80 24).scroll_bottom)) = some (0, 23) ∧
    (0 : Nat) < 24 ∧ (23 : Nat) ≠ 0 := by
  refine ⟨by decide, by omega, by omega⟩

/-- C4 amended: for every buffer state and every requested size with
`cols ≥ 1`, `rows ≥ 1`, `resize` yields a grid of exactly the new dimensions,
keeping surviving cells and padding with default blanks; `cursor_x` and
`cursor_y` are clamped (each keeps its previous value when in bounds), while
`scroll_bottom` is set to `new_rows − 1` unconditionally (it does not keep an
in-bounds previous value).  Applied at every step, this covers the
80×24 → 40×10 → 80×24 scenario. -/
theorem C4_amended (b : TerminalBuffer) {C2 R2 : Nat} (_hC : 1 ≤ C2) (_hR : 1 ≤ R2) :
    (b.resize C2 R2).cells.length = R2 ∧
    (∀ row ∈ (b.resize C2 R2).cells, row.length = C2) ∧
    (∀ y x, y < R2 → x < C2 →
      (b.resize C2 R2).cells[y]?.bind (fun row => row[x]?) =
        some ((b.cells[y]?.bind (fun row => row[x]?)).getD Cell.default)) ∧
    (b.resize C2 R2).cursor_x = min b.cursor_x (C2 - 1) ∧
    (b.resize C2 R2).cursor_y = min b.cursor_y (R2 - 1) ∧
    (b.resize C2 R2).scroll_bottom = R2 - 1 := by
  have hfit : ∀ (row : List Cell) (x : Nat), x < C2 →
      (if C2 ≤ row.length then row.take C2
       else row ++ List.replicate (C2 - row.length) Cell.default)[x]? =
        some ((row[x]?).getD Cell.default) := by
    intro row x hx
    by_cases hcl : C2 ≤ row.length
    · rw [if_pos hcl, List.getElem?_take_of_lt hx, List.getElem?_eq_getElem (by omega)]
      rfl
    · rw [if_neg hcl]
      by_cases hxl : x < row.length
      · rw [List.getElem?_append_left hxl, List.getElem?_eq_getElem hxl]
        rfl
      · rw [List.getElem?_append_right (by omega), List.getElem?_replicate,
          if_pos (by omega), List.getElem?_eq_none (by omega)]
        rfl
  refine ⟨?_, ?_, ?_, rfl, rfl, rfl⟩
  · show ((if R2 ≤ b.cells.length then b.cells.take R2
      else b.cells ++ List.replicate (R2 - b.cells.length) (blankRow C2)).map _).length = R2
    by_cases hrl : R2 ≤ b.cells.length
    · simp [hrl]
    · simp [hrl]
      omega
  · intro row hrow
    simp only [TerminalBuffer.resize] at hrow
    obtain ⟨row0, _, heq⟩ := List.mem_map.mp hrow
    subst heq
    by_cases hcl : C2 ≤ row0.length
    · simp [hcl]
    · simp [hcl]
      omega
  · intro y x hy hx
    show ((if R2 ≤ b.cells.length then b.cells.take R2
        else b.cells ++ List.replicate (R2 - b.cells.length) (blankRow C2)).map _)[y]?.bind
        (fun row => row[x]?) = _
    rw [List.getElem?_map]
    by_cases hyl : y < b.cells.length
    · have hrowsAdj : (if R2 ≤ b.cells.length then b.cells.take R2
          else b.cells ++ List.replicate (R2 - b.cells.length) (blankRow C2))[y]? =
            b.cells[y]? := by
        by_cases hrl : R2 ≤ b.cells.length
        · rw [if_pos hrl, List.getElem?_take_of_lt hy]
        · rw [if_neg hrl, List.getElem?_append_left hyl]
      rw [hrowsAdj, List.getElem?_eq_getElem hyl]
      exact hfit _ x hx
    · have hrl : ¬ R2 ≤ b.cells.length := by omega
      have hrowsAdj : (if R2 ≤ b.cells.length then b.cells.take R2
          else b.cells ++ List.replicate (R2 - b.cells.length) (blankRow C2))[y]? =
            some (blankRow C2) := by
        rw [if_neg hrl, List.getElem?_append_right (by omega), List.getElem?_replicate,
          if_pos (by omega)]
      rw [hrowsAdj, List.getElem?_eq_none (by omega)]
      simp [blankRow, List.getElem?_replicate, hx]

theorem C4_amended_witness :
    1 ≤ 40 ∧ 1 ≤ 10 ∧
    (((TerminalBuffer.new 80 24).resize 40 10).cells.length = 10 ∧
      (∀ row ∈ ((TerminalBuffer.new 80 24).resize 40 10).cells, row.length = 40) ∧
      (∀ y x, y < 10 → x < 40 →
        ((TerminalBuffer.new 80 24).resize 40 10).cells[y]?.bind (fun row => row[x]?) =
          some (((TerminalBuffer.new 80 24).cells[y]?.bind (fun row => row[x]?)).getD
            Cell.default)) ∧
      ((TerminalBuffer.new 80 24).resize 40 10).cursor_x =
        min (TerminalBuffer.new 80 24).cursor_x (40 - 1) ∧
      ((TerminalBuffer.new 80 24).resize 40 10).cursor_y =
        min (TerminalBuffer.new 80 24).cursor_y (10 - 1) ∧
      ((TerminalBuffer.new 80 24).resize 40 10).scroll_bottom = 10 - 1) :=
  ⟨by omega, by omega, C4_amended (TerminalBuffer.new 80 24) (by omega) (by omega)⟩

/-- The behaviour of the read loop over any sequence of read outcomes, from
any buffer satisfying the invariant: it terminates exactly at the first
EOF or I/O error, never panics, and emits `Exited` (always with code 0) if
and only if that first stop signal is EOF — an I/O error only breaks the
loop. -/
theorem readLoop_spec {C R : Nat} :
    ∀ (rs : List ReadResult) (b : TerminalBuffer), Inv C R b →
    ((readLoop b rs).2 = LoopStatus.terminated ↔ rs.any isEndSignal = true) ∧
    ((readLoop b rs).2 ≠ LoopStatus.panicked) ∧
    (LoopEvent.exited 0 ∈ (readLoop b rs).1 ↔ rs.find? isEndSignal = some ReadResult.eof) ∧
    (∀ c : Int, c ≠ 0 → LoopEvent.exited c ∉ (readLoop b rs).1) := by
  intro rs
  induction rs with
  | nil =>
    intro b _
    refine ⟨by simp [readLoop], by simp [readLoop], by simp [readLoop], ?_⟩
    intro c _
    simp [readLoop]
  | cons r rs ih =>
    intro b hb
    cases r with
    | eof =>
      refine ⟨by simp [readLoop, isEndSignal], by simp [readLoop],
        by simp [readLoop, isEndSignal], ?_⟩
      intro c hc
      simp [readLoop, hc]
    | ioErr =>
      refine ⟨by simp [readLoop, isEndSignal], by simp [readLoop],
        by simp [readLoop, isEndSignal], ?_⟩
      intro c _
      simp [readLoop]
    | ok bytes =>
      obtain ⟨b2, hb2, hInv2⟩ := writeBytes_ok hb bytes
      obtain ⟨ih1, ih2, ih3, ih4⟩ := ih b2 hInv2
      cases hrl : readLoop b2 rs with
      | mk es st =>
        rw [hrl] at ih1 ih2 ih3 ih4
        refine ⟨by simp [readLoop, hb2, hrl, isEndSignal, ih1],
          by simp [readLoop, hb2, hrl, ih2],
          by simp [readLoop, hb2, hrl, isEndSignal, ih3], ?_⟩
        intro c hc
        simp [readLoop, hb2, hrl]
        exact ih4 c hc

/-- C5 counterexample: the claim says the read loop emits an `Exited` event in
BOTH termination cases (EOF and fatal I/O error).  A run whose first read
outcome is a fatal I/O error terminates, but the `Err` arm only logs and
breaks: no event at all is emitted, in particular no `Exited`. -/
theorem C5_counterexample :
    readLoop (TerminalBuffer.new 80 24) [ReadResult.ioErr] = ([], LoopStatus.terminated) ∧
    ∀ c : Int, LoopEvent.exited c ∉
      (readLoop (TerminalBuffer.new 80 24) [ReadResult.ioErr]).1 := by
  refine ⟨by decide, ?_⟩
  intro c hc
  rw [show readLoop (TerminalBuffer.new 80 24) [ReadResult.ioErr] =
    ([], LoopStatus.terminated) from by decide] at hc
  simp at hc

/-- C5 amended: the read loop terminates exactly when a read returns EOF or a
fatal I/O error, but it emits an `Exited` event (code 0) only in the EOF
case; a fatal I/O error terminates the loop silently. -/
theorem C5_amended {C R : Nat} (hC : 1 ≤ C) (hR : 1 ≤ R) (rs : List ReadResult) :
    ((readLoop (TerminalBuffer.new C R) rs).2 = LoopStatus.terminated ↔
      rs.any isEndSignal = true) ∧
    ((readLoop (TerminalBuffer.new C R) rs).2 ≠ LoopStatus.panicked) ∧
    (LoopEvent.exited 0 ∈ (readLoop (TerminalBuffer.new C R) rs).1 ↔
      rs.find? isEndSignal = some ReadResult.eof) ∧
    (∀ c : Int, c ≠ 0 → LoopEvent.exited c ∉ (readLoop (TerminalBuffer.new C R) rs).1) :=
  readLoop_spec rs (TerminalBuffer.new C R) (Inv_new hC hR)

theorem C5_amended_witness :
    1 ≤ 80 ∧ 1 ≤ 24 ∧
    (((readLoop (TerminalBuffer.new 80 24) [ReadResult.ok [65], ReadResult.eof]).2 =
        LoopStatus.terminated ↔
      ([ReadResult.ok [65], ReadResult.eof].any isEndSignal) = true) ∧
    ((readLoop (TerminalBuffer.new 80 24) [ReadResult.ok [65], ReadResult.eof]).2 ≠
      LoopStatus.panicked) ∧
    (LoopEvent.exited 0 ∈
        (readLoop (TerminalBuffer.new 80 24) [ReadResult.ok [65], ReadResult.eof]).1 ↔
      [ReadResult.ok [65], ReadResult.eof].find? isEndSignal = some ReadResult.eof) ∧
    (∀ c : Int, c ≠ 0 → LoopEvent.exited c ∉
      (readLoop (TerminalBuffer.new 80 24) [ReadResult.ok [65], ReadResult.eof]).1)) :=
  ⟨by omega, by omega,
    C5_amended (by omega) (by omega) [ReadResult.ok [65], ReadResult.eof]⟩

theorem scroll_up_cursor (b : TerminalBuffer) (x y : Nat) :
    TerminalBuffer.scroll_up { b with cursor_x := x, cursor_y := y } =
      (b.scroll_up).map (fun b2 => { b2 with cursor_x := x, cursor_y := y }) := by
  unfold TerminalBuffer.scroll_up
  by_cases hlt : b.scroll_top < b.scroll_bottom
  · simp only [hlt, if_pos]
    cases h1 : vecRemove b.cells b.scroll_top with
    | none => simp [h1]
    | some g1 =>
      cases h2 : vecInsert g1 b.scroll_bottom (blankRow b.cols) with
      | none => simp [h1, h2]
      | some g2 => simp [h1, h2]
  · simp [hlt]

theorem scroll_down_cursor (b : TerminalBuffer) (x y : Nat) :
    TerminalBuffer.scroll_down { b with cursor_x := x, cursor_y := y } =
      (b.scroll_down).map (fun b2 => { b2 with cursor_x := x, cursor_y := y }) := by
  unfold TerminalBuffer.scroll_down
  by_cases hlt : b.scroll_top < b.scroll_bottom
  · simp only [hlt, if_pos]
    cases h1 : vecRemove b.cells b.scroll_bottom with
    | none => simp [h1]
    | some g1 =>
      cases h2 : vecInsert g1 b.scroll_top (blankRow b.cols) with
      | none => simp [h1, h2]
      | some g2 => simp [h1, h2]
  · simp [hlt]

theorem foldlM_scroll_up_cursor :
    ∀ (l : List Nat) (b : TerminalBuffer) (x y : Nat),
    l.foldlM (fun (bb : TerminalBuffer) _ => bb.scroll_up)
        { b with cursor_x := x, cursor_y := y } =
      (l.foldlM (fun (bb : TerminalBuffer) _ => bb.scroll_up) b).map
        (fun b2 => { b2 with cursor_x := x, cursor_y := y }) := by
  intro l
  induction l with
  | nil => intro b x y; simp
  | cons a l ih =>
    intro b x y
    simp only [List.foldlM_cons]
    rw [scroll_up_cursor]
    cases h1 : b.scroll_up with
    | none => simp
    | some b1 => simp [ih b1 x y]

theorem foldlM_scroll_down_cursor :
    ∀ (l : List Nat) (b : TerminalBuffer) (x y : Nat),
    l.foldlM (fun (bb : TerminalBuffer) _ => bb.scroll_down)
        { b with cursor_x := x, cursor_y := y } =
      (l.foldlM (fun (bb : TerminalBuffer) _ => bb.scroll_down) b).map
        (fun b2 => { b2 with cursor_x := x, cursor_y := y }) := by
  intro l
  induction l with
  | nil => intro b x y; simp
  | cons a l ih =>
    intro b x y
    simp only [List.foldlM_cons]
    rw [scroll_down_cursor]
    cases h1 : b.scroll_down with
    | none => simp
    | some b1 => simp [ih b1 x y]

/-- C6 counterexample: on a fresh 3×3 buffer, put `A` at (0,0), set the scroll
region to rows 1–2 (`ESC [2;3r`), then send `CSI S`.  The claim says `CSI S`
scrolls the WHOLE buffer up even when a smaller scroll region is set: a
whole-buffer scroll of the pre-`S` state (modelled by `wholeBufferScrollUp`,
written from the spec's words) would put the blank from row 1 at (0,0), but
the actual buffer still shows `A` there — the scroll is confined to the
region. -/
theorem C6_counterexample :
    (writeBytes (TerminalBuffer.new 3 3) [65, 27, 91, 50, 59, 51, 114]).map
      (fun b => (charAt b 0 0, charAt (wholeBufferScrollUp b) 0 0)) =
      some (some 'A', some ' ') ∧
    (writeBytes (TerminalBuffer.new 3 3) [65, 27, 91, 50, 59, 51, 114, 27, 91, 83]).map
      (fun b => charAt b 0 0) = some (some 'A') ∧
    ('A' : Char) ≠ ' ' := by
  refine ⟨by decide, by decide, by decide⟩

/-- C6 amended: for every buffer state and count `n`, the `CSI n S` / `CSI n T`
actions (`n` iterations of `scroll_up` / `scroll_down`) succeed, leave the
cursor where it was, scroll only within `[scroll_top, scroll_bottom]` — every
row outside the scroll region is unchanged — and their effect on the cells is
independent of the cursor position (moving the cursor first changes nothing
but the cursor). -/
theorem C6_amended {C R : Nat} {b : TerminalBuffer} (h : Inv C R b) (n : Nat) (x y : Nat) :
    (∃ b2, (List.range n).foldlM (fun bb _ => bb.scroll_up) b = some b2 ∧
      b2.cursor_x = b.cursor_x ∧ b2.cursor_y = b.cursor_y ∧
      (∀ k, k < b.scroll_top ∨ b.scroll_bottom < k → b2.cells[k]? = b.cells[k]?) ∧
      (List.range n).foldlM (fun bb _ => bb.scroll_up)
          { b with cursor_x := x, cursor_y := y } =
        some { b2 with cursor_x := x, cursor_y := y }) ∧
    (∃ b3, (List.range n).foldlM (fun bb _ => bb.scroll_down) b = some b3 ∧
      b3.cursor_x = b.cursor_x ∧ b3.cursor_y = b.cursor_y ∧
      (∀ k, k < b.scroll_top ∨ b.scroll_bottom < k → b3.cells[k]? = b.cells[k]?) ∧
      (List.range n).foldlM (fun bb _ => bb.scroll_down)
          { b with cursor_x := x, cursor_y := y } =
        some { b3 with cursor_x := x, cursor_y := y }) := by
  constructor
  · obtain ⟨b2, hb2, g2, hb2eq, hsh2, hout2⟩ := foldlM_inv
      (fun bb => ∃ g, bb = { b with cells := g } ∧ GridShape g C R ∧
        (∀ k, k < b.scroll_top ∨ b.scroll_bottom < k → g[k]? = b.cells[k]?))
      (fun bb _ => bb.scroll_up)
      (fun bb u hP => by
        obtain ⟨g, rfl, hshg, houtg⟩ := hP
        obtain ⟨g2, hg2, hsh2, _, hout2⟩ := scroll_up_ok (Inv_cells h hshg)
        exact ⟨{ b with cells := g2 }, hg2, g2, rfl, hsh2,
          fun k hk => (hout2 k hk).trans (houtg k hk)⟩)
      (List.range n) b ⟨b.cells, rfl, h.2.2.1, fun k _ => rfl⟩
    subst hb2eq
    exact ⟨_, hb2, rfl, rfl, hout2, by rw [foldlM_scroll_up_cursor, hb2]; rfl⟩
  · obtain ⟨b3, hb3, g3, hb3eq, hsh3, hout3⟩ := foldlM_inv
      (fun bb => ∃ g, bb = { b with cells := g } ∧ GridShape g C R ∧
        (∀ k, k < b.scroll_top ∨ b.scroll_bottom < k → g[k]? = b.cells[k]?))
      (fun bb _ => bb.scroll_down)
      (fun bb u hP => by
        obtain ⟨g, rfl, hshg, houtg⟩ := hP
        obtain ⟨g3, hg3, hsh3, _, hout3⟩ := scroll_down_ok (Inv_cells h hshg)
        exact ⟨{ b with cells := g3 }, hg3, g3, rfl, hsh3,
          fun k hk => (hout3 k hk).trans (houtg k hk)⟩)
      (List.range n) b ⟨b.cells, rfl, h.2.2.1, fun k _ => rfl⟩
    subst hb3eq
    exact ⟨_, hb3, rfl, rfl, hout3, by rw [foldlM_scroll_down_cursor, hb3]; rfl⟩

theorem C6_amended_witness :
    Inv 3 3 (TerminalBuffer.new 3 3) ∧
    ((∃ b2, (List.range 1).foldlM (fun bb _ => bb.scroll_up) (TerminalBuffer.new 3 3) =
        some b2 ∧
      b2.cursor_x = (TerminalBuffer.new 3 3).cursor_x ∧
      b2.cursor_y = (TerminalBuffer.new 3 3).cursor_y ∧
      (∀ k, k < (TerminalBuffer.new 3 3).scroll_top ∨
          (TerminalBuffer.new 3 3).scroll_bottom < k →
        b2.cells[k]? = (TerminalBuffer.new 3 3).cells[k]?) ∧
      (List.range 1).foldlM (fun bb _ => bb.scroll_up)
          { TerminalBuffer.new 3 3 with cursor_x := 2, cursor_y := 1 } =
        some { b2 with cursor_x := 2, cursor_y := 1 }) ∧
    (∃ b3, (List.range 1).foldlM (fun bb _ => bb.scroll_down) (TerminalBuffer.new 3 3) =
        some b3 ∧
      b3.cursor_x = (TerminalBuffer.new 3 3).cursor_x ∧
      b3.cursor_y = (TerminalBuffer.new 3 3).cursor_y ∧
      (∀ k, k < (TerminalBuffer.new 3 3).scroll_top ∨
          (TerminalBuffer.new 3 3).scroll_bottom < k →
        b3.cells[k]? = (TerminalBuffer.new 3 3).cells[k]?) ∧
      (List.range 1).foldlM (fun bb _ => bb.scroll_down)
          { TerminalBuffer.new 3 3 with cursor_x := 2, cursor_y := 1 } =
        some { b3 with cursor_x := 2, cursor_y := 1 })) :=
  ⟨@Inv_new 3 3 (by omega) (by omega), C6_amended (@Inv_new 3 3 (by omega) (by omega)) 1 2 1⟩

theorem parse_extended_color_lt {params : List Nat} {i : Nat} {c : TerminalColor} {j : Nat}
    (h : parse_extended_color params i = some (c, j)) : i < j := by
  unfold parse_extended_color at h
  split_ifs at h <;> simp_all <;> omega

theorem parse_ext_shift (params : List Nat) (i : Nat) :
    parse_extended_color params i =
      (parse_extended_color (params.drop i) 0).map (fun p => (p.1, i + p.2)) := by
  have hlen : (params.drop i).length = params.length - i := by simp
  have hg : ∀ j, (params.drop i).getD j 0 = params.getD (i + j) 0 := by
    intro j
    simp [List.getD_eq_getElem?_getD, List.getElem?_drop]
  unfold parse_extended_color
  rw [hlen, hg 1, hg 2, hg 3, hg 4]
  by_cases h1 : i + 1 < params.length
  · rw [if_pos h1, if_pos (by omega : 0 + 1 < params.length - i)]
    have e1 : i + (0 + 1) = i + 1 := by omega
    have e2 : i + (0 + 2) = i + 2 := by omega
    have e3 : i + (0 + 3) = i + 3 := by omega
    have e4 : i + (0 + 4) = i + 4 := by omega
    rw [e1, e2, e3, e4]
    by_cases h5 : params.getD (i + 1) 0 = 5
    · rw [if_pos h5, if_pos h5]
      by_cases h2 : i + 2 < params.length
      · rw [if_pos h2, if_pos (by omega : 0 + 2 < params.length - i)]
        simp [Nat.add_comm]
      · rw [if_neg h2, if_neg (by omega : ¬ 0 + 2 < params.length - i)]
        rfl
    · rw [if_neg h5, if_neg h5]
      by_cases hr : params.getD (i + 1) 0 = 2
      · rw [if_pos hr, if_pos hr]
        by_cases h4 : i + 4 < params.length
        · rw [if_pos h4, if_pos (by omega : 0 + 4 < params.length - i)]
          simp [Nat.add_comm]
        · rw [if_neg h4, if_neg (by omega : ¬ 0 + 4 < params.length - i)]
          rfl
      · rw [if_neg hr, if_neg hr]
        rfl
  · rw [if_neg h1, if_neg (by omega : ¬ 0 + 1 < params.length - i)]
    rfl

theorem sgrLoop_out {fuel : Nat} {params : List Nat} {i : Nat} {a : CellAttributes}
    (h : params.length ≤ i) : sgrLoop fuel params i a = a := by
  cases fuel with
  | zero => rfl
  | succ fuel =>
    unfold sgrLoop
    rw [if_neg (by omega)]

/-- With enough fuel (`≥ params.length − i`, which every use satisfies), the
fuelled loop does not depend on the exact amount of fuel: it is the `while`
loop. -/
theorem sgrLoop_fuel :
    ∀ (f1 : Nat) (f2 : Nat) (params : List Nat) (i : Nat) (a : CellAttributes),
    params.length - i ≤ f1 → params.length - i ≤ f2 →
    sgrLoop f1 params i a = sgrLoop f2 params i a := by
  intro f1
  induction f1 with
  | zero =>
    intro f2 params i a h1 _
    rw [sgrLoop_out (by omega), sgrLoop_out (by omega)]
  | succ f1 ih =>
    intro f2 params i a h1 h2
    by_cases hi : i < params.length
    · cases f2 with
      | zero => omega
      | succ f2 =>
        simp only [sgrLoop]
        rw [if_pos hi, if_pos hi]
        by_cases h38 : params.getD i 0 = 38
        · rw [if_pos h38, if_pos h38]
          cases hpe : parse_extended_color params i with
          | none => exact ih f2 params (i + 1) _ (by omega) (by omega)
          | some p =>
            obtain ⟨c, j⟩ := p
            have hij := parse_extended_color_lt hpe
            exact ih f2 params (j + 1) _ (by omega) (by omega)
        · rw [if_neg h38, if_neg h38]
          by_cases h48 : params.getD i 0 = 48
          · rw [if_pos h48, if_pos h48]
            cases hpe : parse_extended_color params i with
            | none => exact ih f2 params (i + 1) _ (by omega) (by omega)
            | some p =>
              obtain ⟨c, j⟩ := p
              have hij := parse_extended_color_lt hpe
              exact ih f2 params (j + 1) _ (by omega) (by omega)
          · rw [if_neg h48, if_neg h48]
            exact ih f2 params (i + 1) _ (by omega) (by omega)
    · rw [sgrLoop_out (by omega), sgrLoop_out (by omega)]

/-- Processing from index `i` equals processing the dropped suffix from 0:
the loop is insensitive to its absolute position. -/
theorem sgrLoop_shift :
    ∀ (fuel : Nat) (params : List Nat) (i : Nat) (a : CellAttributes),
    params.length - i ≤ fuel →
    sgrLoop fuel params i a = sgrLoop fuel (params.drop i) 0 a := by
  intro fuel
  induction fuel with
  | zero =>
    intro params i a h
    rw [sgrLoop_out (by omega), sgrLoop_out (by simp; omega)]
  | succ fuel ih =>
    intro params i a h
    by_cases hi : i < params.length
    · have hg : (params.drop i).getD 0 0 = params.getD i 0 := by
        simp [List.getD_eq_getElem?_getD, List.getElem?_drop]
      have hii : 0 < (params.drop i).length := by
        simp
        omega
      simp only [sgrLoop]
      rw [if_pos hi, if_pos hii, hg, parse_ext_shift params i]
      by_cases h38 : params.getD i 0 = 38
      · rw [if_pos h38, if_pos h38]
        cases hpe : parse_extended_color (params.drop i) 0 with
        | none =>
          simp only [Option.map_none']
          rw [ih params (i + 1) a (by omega), ih (params.drop i) 1 a (by simp; omega),
            List.drop_drop]
        | some p =>
          obtain ⟨c, j0⟩ := p
          have h0j := parse_extended_color_lt hpe
          simp only [Option.map_some']
          rw [ih params (i + j0 + 1) _ (by omega),
            ih (params.drop i) (j0 + 1) _ (by simp; omega), List.drop_drop]
          have heq : i + j0 + 1 = i + (j0 + 1) := by omega
          rw [heq]
      · rw [if_neg h38, if_neg h38]
        by_cases h48 : params.getD i 0 = 48
        · rw [if_pos h48, if_pos h48]
          cases hpe : parse_extended_color (params.drop i) 0 with
          | none =>
            simp only [Option.map_none']
            rw [ih params (i + 1) a (by omega), ih (params.drop i) 1 a (by simp; omega),
              List.drop_drop]
          | some p =>
            obtain ⟨c, j0⟩ := p
            have h0j := parse_extended_color_lt hpe
            simp only [Option.map_some']
            rw [ih params (i + j0 + 1) _ (by omega),
              ih (params.drop i) (j0 + 1) _ (by simp; omega), List.drop_drop]
            have heq : i + j0 + 1 = i + (j0 + 1) := by omega
            rw [heq]
        · rw [if_neg h48, if_neg h48]
          rw [ih params (i + 1) _ (by omega), ih (params.drop i) 1 _ (by simp; omega),
            List.drop_drop]
    · rw [sgrLoop_out (by omega), sgrLoop_out (by simp; omega)]

theorem sgrLoop_succ_38 (f : Nat) (params : List Nat) (attrs : CellAttributes)
    (hlen : 0 < params.length) (h38 : params.getD 0 0 = 38) :
    sgrLoop (f + 1) params 0 attrs =
      match parse_extended_color params 0 with
      | some (c, j) => sgrLoop f params (j + 1) { attrs with fg := c }
      | none => sgrLoop f params (0 + 1) attrs := by
  simp only [sgrLoop]
  rw [if_pos hlen, if_pos h38]

theorem sgrLoop_succ_48 (f : Nat) (params : List Nat) (attrs : CellAttributes)
    (hlen : 0 < params.length) (h38 : ¬ params.getD 0 0 = 38)
    (h48 : params.getD 0 0 = 48) :
    sgrLoop (f + 1) params 0 attrs =
      match parse_extended_color params 0 with
      | some (c, j) => sgrLoop f params (j + 1) { attrs with bg := c }
      | none => sgrLoop f params (0 + 1) attrs := by
  simp only [sgrLoop]
  rw [if_pos hlen, if_neg h38, if_pos h48]

/-- C7 counterexample: the claim says a truncated extended sequence leaves the
fg/bg channel AND the rest of the attribute state unchanged by it.  But after
a failed parse the loop index is not advanced past the sub-selector: for
`SGR 38;5` (no colour index) the `5` is re-interpreted as the standalone SGR
code "blink", so the attribute state ends with the blink flag (bit 128) set —
it is not left unchanged (the fg channel itself is indeed untouched). -/
theorem C7_counterexample :
    process_sgr {} [38, 5] =
      { fg := TerminalColor.Default, bg := TerminalColor.Default, flags := 128 } ∧
    FLAG_BLINK = 128 ∧ (128 : Nat) ≠ 0 ∧
    ({} : CellAttributes).flags = 0 := by
  refine ⟨by decide, rfl, by omega, rfl⟩

/-- C7 amended: well-formed extended colours consume their parameters as the
claim states (`38;5;idx` one 8-bit index, taken mod 256; `38;2;r;g;b` three
components mod 256; likewise `48` for the background), processing then
resuming after them; but when the extended sequence is truncated or malformed
(`parse_extended_color` returns `none`), only the fg/bg channel is left
unchanged — the would-be sub-parameters are NOT consumed and are re-processed
as standalone SGR codes, which can change other attributes. -/
theorem C7_amended (attrs : CellAttributes) (n r g bl : Nat) (rest l : List Nat) :
    (process_sgr attrs (38 :: 5 :: n :: rest) =
      sgrLoop rest.length rest 0 { attrs with fg := TerminalColor.Indexed (n % 256) }) ∧
    (process_sgr attrs (48 :: 5 :: n :: rest) =
      sgrLoop rest.length rest 0 { attrs with bg := TerminalColor.Indexed (n % 256) }) ∧
    (process_sgr attrs (38 :: 2 :: r :: g :: bl :: rest) =
      sgrLoop rest.length rest 0
        { attrs with fg := TerminalColor.Rgb (r % 256) (g % 256) (bl % 256) }) ∧
    (process_sgr attrs (48 :: 2 :: r :: g :: bl :: rest) =
      sgrLoop rest.length rest 0
        { attrs with bg := TerminalColor.Rgb (r % 256) (g % 256) (bl % 256) }) ∧
    (parse_extended_color (38 :: l) 0 = none →
      process_sgr attrs (38 :: l) = sgrLoop l.length l 0 attrs) ∧
    (parse_extended_color (48 :: l) 0 = none →
      process_sgr attrs (48 :: l) = sgrLoop l.length l 0 attrs) := by
  have hpe5 : ∀ h0 : Nat, parse_extended_color (h0 :: 5 :: n :: rest) 0 =
      some (TerminalColor.Indexed (n % 256), 2) := by
    intro h0
    unfold parse_extended_color
    rw [if_pos (show 0 + 1 < (h0 :: 5 :: n :: rest).length by
        simp only [List.length_cons]; omega),
      if_pos (show (h0 :: 5 :: n :: rest).getD (0 + 1) 0 = 5 from rfl),
      if_pos (show 0 + 2 < (h0 :: 5 :: n :: rest).length by
        simp only [List.length_cons]; omega)]
    rfl
  have hpe2 : ∀ h0 : Nat, parse_extended_color (h0 :: 2 :: r :: g :: bl :: rest) 0 =
      some (TerminalColor.Rgb (r % 256) (g % 256) (bl % 256), 4) := by
    intro h0
    unfold parse_extended_color
    rw [if_pos (show 0 + 1 < (h0 :: 2 :: r :: g :: bl :: rest).length by
        simp only [List.length_cons]; omega),
      if_neg (show ¬ (h0 :: 2 :: r :: g :: bl :: rest).getD (0 + 1) 0 = 5 by
        have hv : (h0 :: 2 :: r :: g :: bl :: rest).getD (0 + 1) 0 = 2 := rfl
        omega),
      if_pos (show (h0 :: 2 :: r :: g :: bl :: rest).getD (0 + 1) 0 = 2 from rfl),
      if_pos (show 0 + 4 < (h0 :: 2 :: r :: g :: bl :: rest).length by
        simp only [List.length_cons]; omega)]
    rfl
  refine ⟨?_, ?_, ?_, ?_, ?_, ?_⟩
  · calc process_sgr attrs (38 :: 5 :: n :: rest)
        = sgrLoop (rest.length + 2 + 1) (38 :: 5 :: n :: rest) 0 attrs := by
          unfold process_sgr
          rw [if_neg (by simp), show (38 :: 5 :: n :: rest).length = rest.length + 2 + 1 by
            simp only [List.length_cons]]
      _ = sgrLoop (rest.length + 2) (38 :: 5 :: n :: rest) (2 + 1)
            { attrs with fg := TerminalColor.Indexed (n % 256) } := by
          rw [sgrLoop_succ_38 (rest.length + 2) (38 :: 5 :: n :: rest) attrs (by simp) rfl, hpe5 38]
      _ = sgrLoop (rest.length + 2) rest 0
            { attrs with fg := TerminalColor.Indexed (n % 256) } :=
          sgrLoop_shift _ _ _ _ (by simp only [List.length_cons]; omega)
      _ = sgrLoop rest.length rest 0 { attrs with fg := TerminalColor.Indexed (n % 256) } :=
          sgrLoop_fuel _ _ _ _ _ (by omega) (by omega)
  · calc process_sgr attrs (48 :: 5 :: n :: rest)
        = sgrLoop (rest.length + 2 + 1) (48 :: 5 :: n :: rest) 0 attrs := by
          unfold process_sgr
          rw [if_neg (by simp), show (48 :: 5 :: n :: rest).length = rest.length + 2 + 1 by
            simp only [List.length_cons]]
      _ = sgrLoop (rest.length + 2) (48 :: 5 :: n :: rest) (2 + 1)
            { attrs with bg := TerminalColor.Indexed (n % 256) } := by
          rw [sgrLoop_succ_48 (rest.length + 2) (48 :: 5 :: n :: rest) attrs (by simp)
            (by have hv : (48 :: 5 :: n :: rest).getD 0 0 = 48 := rfl; omega) rfl, hpe5 48]
      _ = sgrLoop (rest.length + 2) rest 0
            { attrs with bg := TerminalColor.Indexed (n % 256) } :=
          sgrLoop_shift _ _ _ _ (by simp only [List.length_cons]; omega)
      _ = sgrLoop rest.length rest 0 { attrs with bg := TerminalColor.Indexed (n % 256) } :=
          sgrLoop_fuel _ _ _ _ _ (by omega) (by omega)
  · calc process_sgr attrs (38 :: 2 :: r :: g :: bl :: rest)
        = sgrLoop (rest.length + 4 + 1) (38 :: 2 :: r :: g :: bl :: rest) 0 attrs := by
          unfold process_sgr
          rw [if_neg (by simp),
            show (38 :: 2 :: r :: g :: bl :: rest).length = rest.length + 4 + 1 by
              simp only [List.length_cons]]
      _ = sgrLoop (rest.length + 4) (38 :: 2 :: r :: g :: bl :: rest) (4 + 1)
            { attrs with fg := TerminalColor.Rgb (r % 256) (g % 256) (bl % 256) } := by
          rw [sgrLoop_succ_38 (rest.length + 4) (38 :: 2 :: r :: g :: bl :: rest) attrs (by simp)
            rfl, hpe2 38]
      _ = sgrLoop (rest.length + 4) rest 0
            { attrs with fg := TerminalColor.Rgb (r % 256) (g % 256) (bl % 256) } :=
          sgrLoop_shift _ _ _ _ (by simp only [List.length_cons]; omega)
      _ = sgrLoop rest.length rest 0
            { attrs with fg := TerminalColor.Rgb (r % 256) (g % 256) (bl % 256) } :=
          sgrLoop_fuel _ _ _ _ _ (by omega) (by omega)
  · calc process_sgr attrs (48 :: 2 :: r :: g :: bl :: rest)
        = sgrLoop (rest.length + 4 + 1) (48 :: 2 :: r :: g :: bl :: rest) 0 attrs := by
          unfold process_sgr
          rw [if_neg (by simp),
            show (48 :: 2 :: r :: g :: bl :: rest).length = rest.length + 4 + 1 by
              simp only [List.length_cons]]
      _ = sgrLoop (rest.length + 4) (48 :: 2 :: r :: g :: bl :: rest) (4 + 1)
            { attrs with bg := TerminalColor.Rgb (r % 256) (g % 256) (bl % 256) } := by
          rw [sgrLoop_succ_48 (rest.length + 4) (48 :: 2 :: r :: g :: bl :: rest) attrs (by simp)
            (by have hv : (48 :: 2 :: r :: g :: bl :: rest).getD 0 0 = 48 := rfl; omega) rfl,
            hpe2 48]
      _ = sgrLoop (rest.length + 4) rest 0
            { attrs with bg := TerminalColor.Rgb (r % 256) (g % 256) (bl % 256) } :=
          sgrLoop_shift _ _ _ _ (by simp only [List.length_cons]; omega)
      _ = sgrLoop rest.length rest 0
            { attrs with bg := TerminalColor.Rgb (r % 256) (g % 256) (bl % 256) } :=
          sgrLoop_fuel _ _ _ _ _ (by omega) (by omega)
  · intro hnone
    calc process_sgr attrs (38 :: l)
        = sgrLoop (l.length + 1) (38 :: l) 0 attrs := by
          unfold process_sgr
          rw [if_neg (by simp), show (38 :: l).length = l.length + 1 by
            simp only [List.length_cons]]
      _ = sgrLoop l.length (38 :: l) (0 + 1) attrs := by
          rw [sgrLoop_succ_38 l.length (38 :: l) attrs (by simp) rfl, hnone]
      _ = sgrLoop l.length l 0 attrs :=
          sgrLoop_shift _ _ _ _ (by simp only [List.length_cons]; omega)
  · intro hnone
    calc process_sgr attrs (48 :: l)
        = sgrLoop (l.length + 1) (48 :: l) 0 attrs := by
          unfold process_sgr
          rw [if_neg (by simp), show (48 :: l).length = l.length + 1 by
            simp only [List.length_cons]]
      _ = sgrLoop l.length (48 :: l) (0 + 1) attrs := by
          rw [sgrLoop_succ_48 l.length (48 :: l) attrs (by simp)
            (by have hv : (48 :: l).getD 0 0 = 48 := rfl; omega) rfl, hnone]
      _ = sgrLoop l.length l 0 attrs :=
          sgrLoop_shift _ _ _ _ (by simp only [List.length_cons]; omega)

theorem C7_amended_witness :
    parse_extended_color (38 :: [5]) 0 = none ∧
    ((process_sgr {} (38 :: 5 :: 196 :: []) =
        sgrLoop ([] : List Nat).length [] 0
          { ({} : CellAttributes) with fg := TerminalColor.Indexed (196 % 256) }) ∧
      (process_sgr {} (38 :: [5]) =
        sgrLoop [5].length [5] 0 ({} : CellAttributes))) := by
  have h := C7_amended {} 196 1 2 3 [] [5]
  exact ⟨by decide, h.1, h.2.2.2.2.1 (by decide)⟩

set_option maxRecDepth 10000 in
/-- C8: indexed colours resolve to CSS exactly by the spec's formulas — the
fixed 16-entry palette for 0–15, the 216-colour cube for 16–231 with each
component 0 or 55+40·n, and the grayscale ramp 8+10·(idx−232) for 232–255
(`index_to_css_spec` is that formula written from the claim; the equality is
checked on all 256 u8 indices); feeding `ESC[38;5;196m` then `X` gives the X
cell the cube-resolved hex of index 196 (which is "#ff0000"), and feeding
`ESC[38;2;10;20;30m` then `Y` gives the Y cell foreground "#0a141e". -/
theorem C8_color_resolution :
    (∀ idx : Fin 256, index_to_css idx.val = index_to_css_spec idx.val) ∧
    ((writeBytes (TerminalBuffer.new 80 24)
        [27, 91, 51, 56, 59, 53, 59, 49, 57, 54, 109, 88]).map
      (fun b => (charAt b 0 0, fgCssAt b 0 0)) =
      some (some 'X', some (index_to_css 196))) ∧
    index_to_css 196 = "#ff0000" ∧
    ((writeBytes (TerminalBuffer.new 80 24)
        [27, 91, 51, 56, 59, 50, 59, 49, 48, 59, 50, 48, 59, 51, 48, 109, 89]).map
      (fun b => (charAt b 0 0, fgCssAt b 0 0)) =
      some (some 'Y', some "#0a141e")) := by
  refine ⟨by decide, by decide, by decide, by decide⟩

/-- C9: for every buffer state, erase-display modes 2 and 3 (`CSI 2J`,
`CSI 3J`) and setting private mode 1049 (`CSI ? 1049 h`, modelled by running
the private-mode handler on accumulated parameter bytes "1049" with final
byte `h`) blank every cell of the grid AND reset the cursor to (0,0): the
cursor never keeps a nonzero position across these operations. -/
theorem C9_clear_resets_cursor (b : TerminalBuffer) :
    (∃ b2, b.erase_display 2 = some b2 ∧ b2.cursor_x = 0 ∧ b2.cursor_y = 0 ∧
      ∀ row ∈ b2.cells, ∀ c ∈ row, c = Cell.default) ∧
    (∃ b3, b.erase_display 3 = some b3 ∧ b3.cursor_x = 0 ∧ b3.cursor_y = 0 ∧
      ∀ row ∈ b3.cells, ∀ c ∈ row, c = Cell.default) ∧
    ((TerminalBuffer.process_csi_private { b with csi_params := [49, 48, 52, 57] }
        104).cursor_x = 0 ∧
      (TerminalBuffer.process_csi_private { b with csi_params := [49, 48, 52, 57] }
        104).cursor_y = 0 ∧
      ∀ row ∈ (TerminalBuffer.process_csi_private { b with csi_params := [49, 48, 52, 57] }
        104).cells, ∀ c ∈ row, c = Cell.default) := by
  refine ⟨⟨b.clear_screen, rfl, rfl, rfl, (clear_screen_spec b).2.2⟩,
    ⟨b.clear_screen, rfl, rfl, rfl, (clear_screen_spec b).2.2⟩, rfl, rfl, ?_⟩
  intro row hrow c hc
  exact (clear_screen_spec { b with csi_params := [49, 48, 52, 57] }).2.2 row hrow c hc

theorem scroll_up_attrs (b : TerminalBuffer) (a : CellAttributes) :
    TerminalBuffer.scroll_up { b with current_attrs := a } =
      (b.scroll_up).map (fun b2 => { b2 with current_attrs := a }) := by
  unfold TerminalBuffer.scroll_up
  by_cases hlt : b.scroll_top < b.scroll_bottom
  · simp only [hlt, if_pos]
    cases h1 : vecRemove b.cells b.scroll_top with
    | none => simp [h1]
    | some g1 =>
      cases h2 : vecInsert g1 b.scroll_bottom (blankRow b.cols) with
      | none => simp [h1, h2]
      | some g2 => simp [h1, h2]
  · simp [hlt]

theorem scroll_down_attrs (b : TerminalBuffer) (a : CellAttributes) :
    TerminalBuffer.scroll_down { b with current_attrs := a } =
      (b.scroll_down).map (fun b2 => { b2 with current_attrs := a }) := by
  unfold TerminalBuffer.scroll_down
  by_cases hlt : b.scroll_top < b.scroll_bottom
  · simp only [hlt, if_pos]
    cases h1 : vecRemove b.cells b.scroll_bottom with
    | none => simp [h1]
    | some g1 =>
      cases h2 : vecInsert g1 b.scroll_top (blankRow b.cols) with
      | none => simp [h1, h2]
      | some g2 => simp [h1, h2]
  · simp [hlt]

/-- Folding an attribute-blind step commutes with changing `current_attrs`. -/
theorem foldlM_map_attrs (f : TerminalBuffer → Nat → Option TerminalBuffer)
    (a : CellAttributes)
    (hf : ∀ x u, f { x with current_attrs := a } u =
      (f x u).map (fun y => { y with current_attrs := a })) :
    ∀ (l : List Nat) (x : TerminalBuffer),
    l.foldlM f { x with current_attrs := a } =
      (l.foldlM f x).map (fun y => { y with current_attrs := a }) := by
  intro l
  induction l with
  | nil => intro x; simp
  | cons u l ih =>
    intro x
    simp only [List.foldlM_cons]
    rw [hf]
    cases h : f x u with
    | none => simp
    | some y => simp [ih y]

theorem erase_line_attrs (b : TerminalBuffer) (a : CellAttributes) (m : Nat) :
    TerminalBuffer.erase_line { b with current_attrs := a } m =
      (b.erase_line m).map (fun b2 => { b2 with current_attrs := a }) := by
  simp only [TerminalBuffer.erase_line]
  by_cases hg : b.cursor_y ≥ b.rows
  · simp [hg]
  · by_cases h0 : m = 0
    · cases h : setCells b.cells b.cursor_y (List.range' b.cursor_x (b.cols - b.cursor_x))
          Cell.default with
      | none => simp [hg, h0, h]
      | some g => simp [hg, h0, h]
    · by_cases h1 : m = 1
      · cases h : setCells b.cells b.cursor_y
            (List.range (min b.cursor_x (b.cols - 1) + 1)) Cell.default with
        | none => simp [hg, h0, h1, h]
        | some g => simp [hg, h0, h1, h]
      · by_cases h2 : m = 2
        · cases h : setCells b.cells b.cursor_y (List.range b.cols) Cell.default with
          | none => simp [hg, h0, h1, h2, h]
          | some g => simp [hg, h0, h1, h2, h]
        · simp [hg, h0, h1, h2]

theorem erase_display_attrs (b : TerminalBuffer) (a : CellAttributes) (m : Nat) :
    TerminalBuffer.erase_display { b with current_attrs := a } m =
      (b.erase_display m).map (fun b2 => { b2 with current_attrs := a }) := by
  simp only [TerminalBuffer.erase_display]
  by_cases h0 : m = 0
  · simp only [h0, if_pos]
    rw [erase_line_attrs]
    cases h1 : b.erase_line 0 with
    | none => simp
    | some b1 =>
      simp only [Option.map_some', Option.bind_some]
      cases h2 : clearRows b1.cells
          (List.range' (b1.cursor_y + 1) (b1.rows - (b1.cursor_y + 1))) b1.cols with
      | none => simp [h2]
      | some g2 => simp [h2]
  · by_cases h1 : m = 1
    · simp only [h0, h1, if_neg, if_pos, ite_true, ite_false]
      cases h2 : clearRows b.cells (List.range b.cursor_y) b.cols with
      | none => simp [h0, h2]
      | some g2 =>
        show TerminalBuffer.erase_line
            { ({ b with cells := g2 } : TerminalBuffer) with current_attrs := a } 1 =
          Option.map (fun b2 => { b2 with current_attrs := a })
            (TerminalBuffer.erase_line ({ b with cells := g2 } : TerminalBuffer) 1)
        exact erase_line_attrs { b with cells := g2 } a 1
    · by_cases h2 : m = 2 ∨ m = 3
      · simp [h0, h1, h2, TerminalBuffer.clear_screen]
      · simp [h0, h1, h2]

theorem delete_chars_attrs (b : TerminalBuffer) (a : CellAttributes) (n : Nat) :
    TerminalBuffer.delete_chars { b with current_attrs := a } n =
      (b.delete_chars n).map (fun y => { y with current_attrs := a }) := by
  simp only [TerminalBuffer.delete_chars]
  by_cases hg : b.cursor_y ≥ b.rows
  · simp [hg]
  · cases hrow : b.cells[b.cursor_y]? with
    | none => simp [hg, hrow]
    | some row => simp [hg, hrow]

theorem insert_chars_attrs (b : TerminalBuffer) (a : CellAttributes) (n : Nat) :
    TerminalBuffer.insert_chars { b with current_attrs := a } n =
      (b.insert_chars n).map (fun y => { y with current_attrs := a }) := by
  simp only [TerminalBuffer.insert_chars]
  by_cases hg : b.cursor_y ≥ b.rows
  · simp [hg]
  · cases hrow : b.cells[b.cursor_y]? with
    | none => simp [hg, hrow]
    | some row =>
      simp only [hg, hrow, ite_false, Option.bind_some]
      cases hfold : (List.range n).foldlM
          (fun r _ =>
            if b.cursor_x < b.cols then
              match vecInsert r b.cursor_x Cell.default with
              | some row => some (row.take b.cols)
              | none => none
            else some r)
          row with
      | none => simp [hg, hfold]
      | some r2 => simp [hg, hfold]

theorem insert_lines_attrs (b : TerminalBuffer) (a : CellAttributes) (n : Nat) :
    TerminalBuffer.insert_lines { b with current_attrs := a } n =
      (b.insert_lines n).map (fun y => { y with current_attrs := a }) := by
  refine foldlM_map_attrs _ a (fun x u => ?_) (List.range n) b
  dsimp only
  by_cases hcond : x.cursor_y ≤ x.scroll_bottom
  · simp only [hcond, if_pos]
    cases h1 : vecRemove x.cells x.scroll_bottom with
    | none => simp [h1]
    | some g1 =>
      cases h2 : vecInsert g1 x.cursor_y (blankRow x.cols) with
      | none => simp [h1, h2]
      | some g2 => simp [h1, h2]
  · simp [hcond]

theorem delete_lines_attrs (b : TerminalBuffer) (a : CellAttributes) (n : Nat) :
    TerminalBuffer.delete_lines { b with current_attrs := a } n =
      (b.delete_lines n).map (fun y => { y with current_attrs := a }) := by
  refine foldlM_map_attrs _ a (fun x u => ?_) (List.range n) b
  dsimp only
  by_cases hcond : x.cursor_y ≤ x.scroll_bottom
  · simp only [hcond, if_pos]
    cases h1 : vecRemove x.cells x.cursor_y with
    | none => simp [h1]
    | some g1 =>
      cases h2 : vecInsert g1 x.scroll_bottom (blankRow x.cols) with
      | none => simp [h1, h2]
      | some g2 => simp [h1, h2]
  · simp [hcond]

theorem scroll_folds_ok {C R : Nat} {b : TerminalBuffer} (h : Inv C R b) (n : Nat) :
    (∃ b2, (List.range n).foldlM (fun (bb : TerminalBuffer) _ => bb.scroll_up) b = some b2 ∧
      CellsFrom b2.cells b.cells) ∧
    (∃ b3, (List.range n).foldlM (fun (bb : TerminalBuffer) _ => bb.scroll_down) b = some b3 ∧
      CellsFrom b3.cells b.cells) := by
  constructor
  · obtain ⟨b2, hb2, g2, hb2eq, hsh2, hfrom2⟩ := foldlM_inv
      (fun bb => ∃ g, bb = { b with cells := g } ∧ GridShape g C R ∧ CellsFrom g b.cells)
      (fun (bb : TerminalBuffer) _ => bb.scroll_up)
      (fun bb u hP => by
        obtain ⟨g, rfl, hshg, hfromg⟩ := hP
        obtain ⟨g2, hg2, hsh2, hfrom2, _⟩ := scroll_up_ok (Inv_cells h hshg)
        exact ⟨{ b with cells := g2 }, hg2, g2, rfl, hsh2, CellsFrom_trans hfromg hfrom2⟩)
      (List.range n) b ⟨b.cells, rfl, h.2.2.1, CellsFrom_refl _⟩
    subst hb2eq
    exact ⟨_, hb2, hfrom2⟩
  · obtain ⟨b3, hb3, g3, hb3eq, hsh3, hfrom3⟩ := foldlM_inv
      (fun bb => ∃ g, bb = { b with cells := g } ∧ GridShape g C R ∧ CellsFrom g b.cells)
      (fun (bb : TerminalBuffer) _ => bb.scroll_down)
      (fun bb u hP => by
        obtain ⟨g, rfl, hshg, hfromg⟩ := hP
        obtain ⟨g3, hg3, hsh3, hfrom3, _⟩ := scroll_down_ok (Inv_cells h hshg)
        exact ⟨{ b with cells := g3 }, hg3, g3, rfl, hsh3, CellsFrom_trans hfromg hfrom3⟩)
      (List.range n) b ⟨b.cells, rfl, h.2.2.1, CellsFrom_refl _⟩
    subst hb3eq
    exact ⟨_, hb3, hfrom3⟩

/-- C10: no background-colour-erase.  For every buffer state (under the
reachable-state invariant) and every pending attribute state `a`: the cells
produced by the erase operations (`CSI J` = 74, `CSI K` = 75, `CSI X` = 88)
and by scrolling (`CSI S` = 83, `CSI T` = 84), line insert/delete
(`CSI L` = 76, `CSI M` = 77) and character delete/insert (`CSI P` = 80,
`CSI @` = 64) do not depend on `current_attrs` (changing the pending
attributes changes nothing in the resulting grid), and every cell of the
result is either a cell of the original grid or the default blank cell —
space, Default fg, Default bg, zero flags (spelled out inside `CellsFrom`);
likewise for the `scroll_up`/`scroll_down` primitives used by newline and
reverse-index. -/
theorem C10_no_bce {C R : Nat} {b : TerminalBuffer} (h : Inv C R b) (a : CellAttributes)
    (fb : Nat) (hfb : fb ∈ [74, 75, 88, 76, 77, 80, 64, 83, 84]) :
    ((TerminalBuffer.execute_csi { b with current_attrs := a } fb).map TerminalBuffer.cells =
      (b.execute_csi fb).map TerminalBuffer.cells) ∧
    (∃ b2, b.execute_csi fb = some b2 ∧ CellsFrom b2.cells b.cells) ∧
    ((TerminalBuffer.scroll_up { b with current_attrs := a }).map TerminalBuffer.cells =
      (b.scroll_up).map TerminalBuffer.cells) ∧
    (∃ b3, b.scroll_up = some b3 ∧ CellsFrom b3.cells b.cells) ∧
    ((TerminalBuffer.scroll_down { b with current_attrs := a }).map TerminalBuffer.cells =
      (b.scroll_down).map TerminalBuffer.cells) ∧
    (∃ b4, b.scroll_down = some b4 ∧ CellsFrom b4.cells b.cells) := by
  have hInv := h
  have hsu : (TerminalBuffer.scroll_up { b with current_attrs := a }).map
      TerminalBuffer.cells = (b.scroll_up).map TerminalBuffer.cells := by
    rw [scroll_up_attrs]
    cases b.scroll_up <;> simp
  have hsd : (TerminalBuffer.scroll_down { b with current_attrs := a }).map
      TerminalBuffer.cells = (b.scroll_down).map TerminalBuffer.cells := by
    rw [scroll_down_attrs]
    cases b.scroll_down <;> simp
  have hsuok : ∃ b3, b.scroll_up = some b3 ∧ CellsFrom b3.cells b.cells := by
    obtain ⟨g2, hg2, _, hfrom2, _⟩ := scroll_up_ok hInv
    exact ⟨_, hg2, hfrom2⟩
  have hsdok : ∃ b4, b.scroll_down = some b4 ∧ CellsFrom b4.cells b.cells := by
    obtain ⟨g2, hg2, _, hfrom2, _⟩ := scroll_down_ok hInv
    exact ⟨_, hg2, hfrom2⟩
  refine ⟨?_, ?_, hsu, hsuok, hsd, hsdok⟩
  · simp only [List.mem_cons, List.not_mem_nil, or_false] at hfb
    have hpp : TerminalBuffer.parse_params { b with current_attrs := a } = b.parse_params := rfl
    rcases hfb with rfl | rfl | rfl | rfl | rfl | rfl | rfl | rfl | rfl
    · rw [show TerminalBuffer.execute_csi { b with current_attrs := a } 74 =
          TerminalBuffer.erase_display { b with current_attrs := a }
            (b.parse_params.headD 0) from rfl,
        show b.execute_csi 74 = b.erase_display (b.parse_params.headD 0) from rfl,
        erase_display_attrs]
      cases b.erase_display (b.parse_params.headD 0) <;> simp
    · rw [show TerminalBuffer.execute_csi { b with current_attrs := a } 75 =
          TerminalBuffer.erase_line { b with current_attrs := a }
            (b.parse_params.headD 0) from rfl,
        show b.execute_csi 75 = b.erase_line (b.parse_params.headD 0) from rfl,
        erase_line_attrs]
      cases b.erase_line (b.parse_params.headD 0) <;> simp
    · rw [show TerminalBuffer.execute_csi { b with current_attrs := a } 88 =
          ((List.range (max (b.parse_params.headD 1) 1)).foldlM
            (fun g i =>
              if (b.cursor_x + i) % USIZE < b.cols ∧ b.cursor_y < b.rows then
                setCell g b.cursor_y ((b.cursor_x + i) % USIZE) Cell.default
              else some g)
            b.cells).map (fun g => { b with current_attrs := a, cells := g }) from rfl,
        show b.execute_csi 88 =
          ((List.range (max (b.parse_params.headD 1) 1)).foldlM
            (fun g i =>
              if (b.cursor_x + i) % USIZE < b.cols ∧ b.cursor_y < b.rows then
                setCell g b.cursor_y ((b.cursor_x + i) % USIZE) Cell.default
              else some g)
            b.cells).map (fun g => { b with cells := g }) from rfl]
      cases (List.range (max (b.parse_params.headD 1) 1)).foldlM
          (fun g i =>
            if (b.cursor_x + i) % USIZE < b.cols ∧ b.cursor_y < b.rows then
              setCell g b.cursor_y ((b.cursor_x + i) % USIZE) Cell.default
            else some g)
          b.cells <;> simp
    · rw [show TerminalBuffer.execute_csi { b with current_attrs := a } 76 =
          TerminalBuffer.insert_lines { b with current_attrs := a }
            (max (b.parse_params.headD 1) 1) from rfl,
        show b.execute_csi 76 = b.insert_lines (max (b.parse_params.headD 1) 1) from rfl,
        insert_lines_attrs]
      cases b.insert_lines (max (b.parse_params.headD 1) 1) <;> simp
    · rw [show TerminalBuffer.execute_csi { b with current_attrs := a } 77 =
          TerminalBuffer.delete_lines { b with current_attrs := a }
            (max (b.parse_params.headD 1) 1) from rfl,
        show b.execute_csi 77 = b.delete_lines (max (b.parse_params.headD 1) 1) from rfl,
        delete_lines_attrs]
      cases b.delete_lines (max (b.parse_params.headD 1) 1) <;> simp
    · rw [show TerminalBuffer.execute_csi { b with current_attrs := a } 80 =
          TerminalBuffer.delete_chars { b with current_attrs := a }
            (max (b.parse_params.headD 1) 1) from rfl,
        show b.execute_csi 80 = b.delete_chars (max (b.parse_params.headD 1) 1) from rfl,
        delete_chars_attrs]
      cases b.delete_chars (max (b.parse_params.headD 1) 1) <;> simp
    · rw [show TerminalBuffer.execute_csi { b with current_attrs := a } 64 =
          TerminalBuffer.insert_chars { b with current_attrs := a }
            (max (b.parse_params.headD 1) 1) from rfl,
        show b.execute_csi 64 = b.insert_chars (max (b.parse_params.headD 1) 1) from rfl,
        insert_chars_attrs]
      cases b.insert_chars (max (b.parse_params.headD 1) 1) <;> simp
    · rw [show TerminalBuffer.execute_csi { b with current_attrs := a } 83 =
          (List.range (max (b.parse_params.headD 1) 1)).foldlM
            (fun (bb : TerminalBuffer) _ => bb.scroll_up)
            { b with current_attrs := a } from rfl,
        show b.execute_csi 83 =
          (List.range (max (b.parse_params.headD 1) 1)).foldlM
            (fun (bb : TerminalBuffer) _ => bb.scroll_up) b from rfl,
        foldlM_map_attrs _ a (fun x u => scroll_up_attrs x a)]
      cases (List.range (max (b.parse_params.headD 1) 1)).foldlM
        (fun (bb : TerminalBuffer) _ => bb.scroll_up) b <;> simp
    · rw [show TerminalBuffer.execute_csi { b with current_attrs := a } 84 =
          (List.range (max (b.parse_params.headD 1) 1)).foldlM
            (fun (bb : TerminalBuffer) _ => bb.scroll_down)
            { b with current_attrs := a } from rfl,
        show b.execute_csi 84 =
          (List.range (max (b.parse_params.headD 1) 1)).foldlM
            (fun (bb : TerminalBuffer) _ => bb.scroll_down) b from rfl,
        foldlM_map_attrs _ a (fun x u => scroll_down_attrs x a)]
      cases (List.range (max (b.parse_params.headD 1) 1)).foldlM
        (fun (bb : TerminalBuffer) _ => bb.scroll_down) b <;> simp
  · simp only [List.mem_cons, List.not_mem_nil, or_false] at hfb
    rcases hfb with rfl | rfl | rfl | rfl | rfl | rfl | rfl | rfl | rfl
    · obtain ⟨b2, hb2, _, hfrom⟩ := erase_display_ok hInv (b.parse_params.headD 0)
      exact ⟨b2, hb2, hfrom⟩
    · obtain ⟨g2, hg2, _, hfrom⟩ := erase_line_ok hInv (b.parse_params.headD 0)
      exact ⟨_, hg2, hfrom⟩
    · obtain ⟨g2, hg2, _, hfrom⟩ := ech_fold_ok hInv (max (b.parse_params.headD 1) 1)
      refine ⟨{ b with cells := g2 }, ?_, hfrom⟩
      rw [show TerminalBuffer.execute_csi b 88 =
          ((List.range (max (b.parse_params.headD 1) 1)).foldlM
            (fun g i =>
              if (b.cursor_x + i) % USIZE < b.cols ∧ b.cursor_y < b.rows then
                setCell g b.cursor_y ((b.cursor_x + i) % USIZE) Cell.default
              else some g)
            b.cells).map (fun g => { b with cells := g }) from rfl, hg2]
      rfl
    · obtain ⟨g2, hg2, _, hfrom⟩ := insert_lines_ok hInv (max (b.parse_params.headD 1) 1)
      exact ⟨_, hg2, hfrom⟩
    · obtain ⟨g2, hg2, _, hfrom⟩ := delete_lines_ok hInv (max (b.parse_params.headD 1) 1)
      exact ⟨_, hg2, hfrom⟩
    · obtain ⟨g2, hg2, _, hfrom⟩ := delete_chars_ok hInv (max (b.parse_params.headD 1) 1)
      exact ⟨_, hg2, hfrom⟩
    · obtain ⟨g2, hg2, _, hfrom⟩ := insert_chars_ok hInv (max (b.parse_params.headD 1) 1)
      exact ⟨_, hg2, hfrom⟩
    · exact (scroll_folds_ok hInv (max (b.parse_params.headD 1) 1)).1
    · exact (scroll_folds_ok hInv (max (b.parse_params.headD 1) 1)).2

theorem C10_no_bce_witness :
    Inv 2 2 (TerminalBuffer.new 2 2) ∧ (74 ∈ [74, 75, 88, 76, 77, 80, 64, 83, 84]) ∧
    (((TerminalBuffer.execute_csi
        { TerminalBuffer.new 2 2 with
          current_attrs := { fg := TerminalColor.Indexed 1, bg := TerminalColor.Indexed 2,
                             flags := 3 } } 74).map TerminalBuffer.cells =
      ((TerminalBuffer.new 2 2).execute_csi 74).map TerminalBuffer.cells) ∧
    (∃ b2, (TerminalBuffer.new 2 2).execute_csi 74 = some b2 ∧
      CellsFrom b2.cells (TerminalBuffer.new 2 2).cells) ∧
    ((TerminalBuffer.scroll_up
        { TerminalBuffer.new 2 2 with
          current_attrs := { fg := TerminalColor.Indexed 1, bg := TerminalColor.Indexed 2,
                             flags := 3 } }).map TerminalBuffer.cells =
      ((TerminalBuffer.new 2 2).scroll_up).map TerminalBuffer.cells) ∧
    (∃ b3, (TerminalBuffer.new 2 2).scroll_up = some b3 ∧
      CellsFrom b3.cells (TerminalBuffer.new 2 2).cells) ∧
    ((TerminalBuffer.scroll_down
        { TerminalBuffer.new 2 2 with
          current_attrs := { fg := TerminalColor.Indexed 1, bg := TerminalColor.Indexed 2,
                             flags := 3 } }).map TerminalBuffer.cells =
      ((TerminalBuffer.new 2 2).scroll_down).map TerminalBuffer.cells) ∧
    (∃ b4, (TerminalBuffer.new 2 2).scroll_down = some b4 ∧
      CellsFrom b4.cells (TerminalBuffer.new 2 2).cells)) :=
  ⟨@Inv_new 2 2 (by omega) (by omega), by decide,
    C10_no_bce (@Inv_new 2 2 (by omega) (by omega))
      { fg := TerminalColor.Indexed 1, bg := TerminalColor.Indexed 2, flags := 3 } 74
      (by decide)⟩

end Codelane
